import Mathlib

/-!
# Verification development for the c89-compiler semantic core

Shallow embedding of the repository's two constant-folding passes
(`comp_lib/src/passes/const_fold.rs` and `src/passes/const_fold.rs`), the
AST-to-IR lowering engine (`comp_lib/src/passes/lower_ast/mod.rs`), and the
literal-fitting utility (`comp_lib/src/passes/lower_ast/util.rs`).

Modelling conventions:
* Rust `i128` values are modelled as `Int`; operations that wrap in release
  builds are wrapped explicitly with `wrapI128`; operations that panic in all
  build profiles (integer division / remainder by zero and their overflow
  case) are modelled with `Except Unit`, `Except.error` standing for a panic.
* Rust `f64` is modelled parametrically: every fold definition takes a
  `FloatModel F` supplying the primitive `f64` operations as opaque functions.
  No theorem below relies on any algebraic property of these operations.
* In-place tree mutation (`&mut`) is modelled by explicit state passing:
  each fold function returns the rewritten tree alongside its value.
-/

/-- Byte offset + length into the source buffer (`src/ast.rs`, `Span`). -/
structure Span where
  start : Nat
  length : Nat
deriving DecidableEq, Repr

/-- Identifier node: a span plus the identifier text (`ast::IdentNode`). -/
structure IdentNode where
  span : Span
  data : String
deriving DecidableEq, Repr

/-- Binary operators of the comp_lib AST (`ast::BinaryOperator`). -/
inductive BinaryOperator where
  | plus | minus | star | slash | pipe | caret | ampersand
  | angleLeft | angleRight | doubleEquals | doubleAmpersand | doublePipe
  | bangEquals | percent | angleLeftEquals | angleRightEquals
  | doubleAngleLeft | doubleAngleRight
deriving DecidableEq, Repr

/-- `ast::BinaryOperatorNode`. -/
structure BinaryOperatorNode where
  span : Span
  data : BinaryOperator
deriving DecidableEq, Repr

/-- Unary operators of the AST (`ast::UnaryOperator`); the increment /
decrement forms keep their prefix/postfix role in the name. -/
inductive UnaryOperator where
  | bang | plus | minus | doublePlusPre | doubleMinusPre
  | doublePlusPost | doubleMinusPost | tilde | ampersand | star
deriving DecidableEq, Repr

/-- `ast::UnaryOperatorNode`. -/
structure UnaryOperatorNode where
  span : Span
  data : UnaryOperator
deriving DecidableEq, Repr

mutual
/-- `ast::QualifiedTypeNode`. -/
inductive QualifiedTypeNode where
  | mk (span : Span) (data : QualifiedType)
/-- `ast::QualifiedType`: optional const qualifier span + unqualified type. -/
inductive QualifiedType where
  | mk (isConst : Option Span) (inner : UnqualifiedTypeNode)
/-- `ast::UnqualifiedTypeNode`. -/
inductive UnqualifiedTypeNode where
  | mk (span : Span) (data : UnqualifiedType)
/-- `ast::UnqualifiedType`: pointer or one of the 13 primitive forms
(as enumerated in `inspectors/dot/inspect_ast.rs`). -/
inductive UnqualifiedType where
  | pointerType (ty : QualifiedTypeNode)
  | void
  | float
  | double
  | longDouble
  | char
  | signedChar
  | unsignedChar
  | signedShortInt
  | signedInt
  | signedLongInt
  | unsignedShortInt
  | unsignedInt
  | unsignedLongInt
end

/-! ## i128 arithmetic model

Rust `i128` two's-complement semantics in release profile: `+`, `-`, `*`,
unary `-` and `<<` wrap; `/` and `%` panic on a zero divisor and on the
`i128::MIN / -1` overflow in every profile. -/

/-- `i128::MIN`. -/
def i128Min : Int := -(2 ^ 127)

/-- Wrap an unbounded integer into the `i128` range (two's complement). -/
def wrapI128 (x : Int) : Int := (x + 2 ^ 127) % 2 ^ 128 - 2 ^ 127

/-- Rust `i128` division (truncating). Panics (models as `Except.error`) on a
zero divisor and on `i128::MIN / -1`. -/
def i128Div (a b : Int) : Except Unit Int :=
  if b = 0 then .error ⟨⟩
  else if a = i128Min && b = -1 then .error ⟨⟩
  else .ok (a.tdiv b)

/-- Rust `i128` remainder (sign of the dividend). Panics on a zero divisor
and on `i128::MIN % -1`. -/
def i128Rem (a b : Int) : Except Unit Int :=
  if b = 0 then .error ⟨⟩
  else if a = i128Min && b = -1 then .error ⟨⟩
  else .ok (a.tmod b)

/-- Rust release-profile `a << b` on `i128`: the shift amount is masked to the
low seven bits, the result wraps. -/
def i128Shl (a b : Int) : Int := wrapI128 (a * 2 ^ (b % 128).toNat)

/-! ## Arithmetic type catalog and literal fitting

`ctype.rs` and `settings.rs` are not part of the sources; `Arithmetic`,
`Settings`, `sizeInBits` and `isSigned` are modelled from the spec (sections
4.2 / 6): a closed catalog of scalar forms whose widths are a function of an
injected target profile.  The unit test in `util.rs` pins the `X86_64`
profile (32-bit `int`, 64-bit `long`). -/

/-- Modelled from the spec: the arithmetic type catalog of `ir::ctype`
(`Arithmetic` in `ctype.rs`, which is not among the sources).  Variant names
follow the AST primitive type names. -/
inductive Arithmetic where
  | char
  | signedChar
  | unsignedChar
  | signedShortInt
  | signedInt
  | signedLongInt
  | unsignedShortInt
  | unsignedInt
  | unsignedLongInt
  | float
  | double
  | longDouble
deriving DecidableEq, Repr

/-- Modelled from the spec: the injected target profile (`settings.rs` is not
among the sources; the unit test in `util.rs` constructs
`Settings { target: Target::X86_64 }`). -/
inductive Target where
  | x86_64
deriving DecidableEq, Repr

/-- Modelled from the spec: immutable settings carrying the target profile. -/
structure Settings where
  target : Target
deriving DecidableEq, Repr

/-- Modelled from the spec: `Arithmetic::size_in_bits(settings)` — width as a
function of the target profile; SysV x86-64 widths. -/
def Arithmetic.sizeInBits (a : Arithmetic) (_s : Settings) : Nat :=
  match a with
  | .char | .signedChar | .unsignedChar => 8
  | .signedShortInt | .unsignedShortInt => 16
  | .signedInt | .unsignedInt => 32
  | .signedLongInt | .unsignedLongInt => 64
  | .float => 32
  | .double => 64
  | .longDouble => 128

/-- Modelled from the spec: `Arithmetic::is_signed()` — signed integer forms
and the floating forms are signed, the unsigned integer forms are not
(plain `char` is signed on the x86-64 target). -/
def Arithmetic.isSigned : Arithmetic → Bool
  | .unsignedChar | .unsignedShortInt | .unsignedInt | .unsignedLongInt => false
  | _ => true

/-- Modelled from the spec: `Arithmetic::is_integral()` — every form except
the three floating ones. -/
def Arithmetic.isIntegral : Arithmetic → Bool
  | .float | .double | .longDouble => false
  | _ => true

/-- Fuel-bounded bit length (`128 - leading_zeros` of a 128-bit register
holds the bit length of the value); structurally recursive so that the
kernel can evaluate it. `bitLenAux 128 n` is the bit length of `n < 2^128`. -/
def bitLenAux : Nat → Nat → Nat
  | 0, _ => 0
  | fuel + 1, n => if n = 0 then 0 else bitLenAux fuel (n / 2) + 1

/-- `i128::leading_zeros` for a non-negative value. -/
def i128LeadingZeros (v : Int) : Nat := 128 - bitLenAux 128 v.toNat

/-- `i128::leading_ones` for a negative value: leading ones of the
two's-complement pattern of `v`, i.e. leading zeros of `!v = -v - 1`. -/
def i128LeadingOnes (v : Int) : Nat := 128 - bitLenAux 128 (-v - 1).toNat

/-- The candidate scan of `find_first_fit` (`util.rs` lines 76–81): first
candidate whose adjusted width is at least the needed bit count. -/
def findFirstFitLoop (neededBits : Nat) (isNeg : Bool) (s : Settings) :
    List Arithmetic → Option Arithmetic
  | [] => none
  | opt :: rest =>
    let bits := opt.sizeInBits s - (if opt.isSigned || isNeg then 1 else 0)
    if neededBits ≤ bits then some opt else findFirstFitLoop neededBits isNeg s rest

/-- `find_first_fit` (`util.rs` lines 65–83): returns the first candidate able
to hold `value` without loss. -/
def findFirstFit (value : Int) (opts : List Arithmetic) (s : Settings) :
    Option Arithmetic :=
  let isNeg := value < 0
  let neededBits :=
    if isNeg then 128 - i128LeadingOnes value else 128 - i128LeadingZeros value
  findFirstFitLoop neededBits isNeg s opts

/-- Stated from the claim's words (spec section 4.2), for comparison with
`findFirstFit`: the adjusted width of a candidate — one bit of headroom
subtracted when the candidate is signed or the value negative. -/
def specAvailBits (v : Int) (s : Settings) (o : Arithmetic) : Nat :=
  o.sizeInBits s - (if o.isSigned || v < 0 then 1 else 0)

/-- Stated from the claim's words: candidate `o`'s range represents `v`
losslessly — `v` lies in the two's-complement magnitude range of the
candidate's adjusted width. -/
def specFits (v : Int) (s : Settings) (o : Arithmetic) : Prop :=
  -(2 ^ specAvailBits v s o) ≤ v ∧ v < 2 ^ specAvailBits v s o

instance (v : Int) (s : Settings) (o : Arithmetic) : Decidable (specFits v s o) :=
  inferInstanceAs (Decidable (_ ∧ _))

/-! ## comp_lib constant-folding pass (`comp_lib/src/passes/const_fold.rs`)

Namespace `CF`.  The pass is parametric in `F`, the model of Rust `f64`:
a `FloatModel F` packages the primitive `f64` operations used by the pass.
No theorem relies on any property of these operations. -/

/-- The primitive `f64` operations used by the folds, as opaque functions
(`f64` modelled parametrically). `beq` models `==`; Rust's `!=` on `f64` is
its negation. -/
structure FloatModel (F : Type) where
  add : F → F → F
  sub : F → F → F
  mul : F → F → F
  div : F → F → F
  neg : F → F
  ofInt : Int → F
  zero : F
  lt : F → F → Bool
  gt : F → F → Bool
  le : F → F → Bool
  ge : F → F → Bool
  beq : F → F → Bool

namespace CF

/-- The fold's generic numeric domain (`enum Value { Int(i128), Float(f64) }`). -/
inductive Value (F : Type) where
  | int (i : Int)
  | float (f : F)
deriving DecidableEq, Repr

/-- `ast::Literal` of the comp_lib AST. -/
inductive Literal (F : Type) where
  | dec (i : Int)
  | hex (i : Int)
  | octal (i : Int)
  | char (c : Int)
  | float (f : F)
  | str (s : String)
deriving DecidableEq, Repr

/-- `ast::LiteralNode`. -/
structure LiteralNode (F : Type) where
  span : Span
  data : Literal F
deriving DecidableEq, Repr

mutual
/-- `ast::Expression` of the comp_lib AST (variants as consumed by
`const_fold.rs` and rendered by `inspect_ast.rs`). -/
inductive Expression (F : Type) where
  | assignment (lhs : ExpressionNode F) (opSpan : Span) (rhs : ExpressionNode F)
  | binary (lhs : ExpressionNode F) (op : BinaryOperatorNode) (rhs : ExpressionNode F)
  | arraySubscript (lhs : ExpressionNode F) (rhs : ExpressionNode F)
  | unary (op : UnaryOperatorNode) (inner : ExpressionNode F)
  | cast (ty : QualifiedTypeNode) (inner : ExpressionNode F)
  | functionCall (fc : FunctionCall F)
  | ident (i : IdentNode)
  | literal (lit : LiteralNode F)
/-- `ast::ExpressionNode`: span + expression. -/
inductive ExpressionNode (F : Type) where
  | mk (span : Span) (data : Expression F)
/-- `ast::FunctionCall`: callee identifier and argument list. -/
inductive FunctionCall (F : Type) where
  | mk (ident : IdentNode) (args : List (ExpressionNode F))
end

/-- The span of an expression node. -/
def ExpressionNode.span {F : Type} : ExpressionNode F → Span
  | .mk s _ => s

/-- The expression of an expression node. -/
def ExpressionNode.data {F : Type} : ExpressionNode F → Expression F
  | .mk _ d => d

/-- `ast::FunctionParamNode`: parameter type and optional name. -/
structure FunctionParam where
  span : Span
  typeName : QualifiedTypeNode
  ident : Option IdentNode

/-- `ast::FunctionDeclaration` (no body); the fold never touches it. -/
structure FunctionDeclarationData where
  returnType : QualifiedTypeNode
  ident : IdentNode
  params : List FunctionParam
  isVararg : Bool

mutual
/-- `ast::Statement` of the comp_lib AST. -/
inductive Statement (F : Type) where
  | declaration (decl : Declaration F)
  | expression (e : ExpressionNode F)
  | ifStmt (i : IfStatement F)
  | switch (s : SwitchStatement F)
  | whileStmt (w : WhileStatement F)
  | forStmt (f : ForStatement F)
  | breakStmt
  | continueStmt
  | ret (kw : Span) (e : Option (ExpressionNode F))
  | blockStatement (bs : BlockStatementNode F)
/-- `ast::StatementNode`. -/
inductive StatementNode (F : Type) where
  | mk (span : Span) (data : Statement F)
/-- `ast::BlockStatementNode`: ordered statement list. -/
inductive BlockStatementNode (F : Type) where
  | mk (stmts : List (StatementNode F))
/-- `ast::IfStatement`. -/
inductive IfStatement (F : Type) where
  | mk (condition : ExpressionNode F) (ifBody : BlockStatementNode F)
      (elseBody : Option (BlockStatementNode F))
/-- `ast::SwitchStatement`. -/
inductive SwitchStatement (F : Type) where
  | mk (expr : ExpressionNode F) (cases : List (SwitchCase F))
/-- `ast::SwitchCase`. -/
inductive SwitchCase (F : Type) where
  | exprCase (expr : ExpressionNode F) (body : BlockStatementNode F)
  | defaultCase (body : BlockStatementNode F)
/-- `ast::WhileStatement`. -/
inductive WhileStatement (F : Type) where
  | mk (condition : ExpressionNode F) (body : BlockStatementNode F)
/-- `ast::ForStatement`. -/
inductive ForStatement (F : Type) where
  | mk (init : Option (StatementNode F)) (condition : Option (ExpressionNode F))
      (iter : Option (ExpressionNode F)) (body : BlockStatementNode F)
/-- `ast::Declaration`. -/
inductive Declaration (F : Type) where
  | variableDecl (v : VariableDeclaration F)
  | functionDeclaration (fd : FunctionDeclarationData)
/-- `ast::VariableDeclaration`: type, identifier, array parts, optional
initializer (assign-operator span + expression). -/
inductive VariableDeclaration (F : Type) where
  | mk (typeName : QualifiedTypeNode) (ident : IdentNode)
      (arrayParts : List (ArrayDeclarationNode F))
      (initializer : Option (Span × ExpressionNode F))
/-- `ast::ArrayDeclarationNode`. -/
inductive ArrayDeclarationNode (F : Type) where
  | mk (span : Span) (data : ArrayDeclaration F)
/-- `ast::ArrayDeclaration`. -/
inductive ArrayDeclaration (F : Type) where
  | unknown
  | known (e : ExpressionNode F)
end

/-- `ast::FunctionDefinition`. -/
structure FunctionDefinition (F : Type) where
  returnType : QualifiedTypeNode
  ident : IdentNode
  params : List FunctionParam
  isVararg : Bool
  body : BlockStatementNode F

/-- `ast::ExternalDeclaration`. -/
inductive ExternalDeclaration (F : Type) where
  | functionDefinition (fd : FunctionDefinition F)
  | declaration (d : Declaration F)

/-- `ast::ExternalDeclarationNode`. -/
structure ExternalDeclarationNode (F : Type) where
  span : Span
  data : ExternalDeclaration F

/-- `ast::Ast`: the list of external declarations. -/
structure Ast (F : Type) where
  globalDeclarations : List (ExternalDeclarationNode F)

/-- The copy-propagation fact threaded through a statement block:
`Option<(&str, Value)>` in the Rust source. -/
abbrev Fact (F : Type) := Option (String × Value F)

/-- The literal written back by `replace_with_literal`: `Dec` for an integer
value, `Float` for a float value (`const_fold.rs` lines 325–328). -/
def litOfValue {F : Type} : Value F → Literal F
  | .int i => .dec i
  | .float f => .float f

/-- `replace_with_literal`: overwrite a node's expression with the literal of
a folded value, keeping the node's span (`const_fold.rs` lines 324–333). -/
def replaceWithLiteral {F : Type} (n : ExpressionNode F) (v : Value F) : ExpressionNode F :=
  .mk n.span (.literal { span := n.span, data := litOfValue v })

/-- `Folder::fold_literal` (lines 314–321). -/
def foldLiteral {F : Type} : Literal F → Option (Value F)
  | .dec i => some (.int i)
  | .hex i => some (.int i)
  | .octal i => some (.int i)
  | .char c => some (.int c)
  | .float f => some (.float f)
  | .str _ => none

/-- The operator dispatch of `fold_binary_op` (lines 241–264): `none` in the
result means "not folded" (`or_else` materialisation fires), `Except.error`
a Rust panic. Mixed int/float operands promote the int side via `ofInt`;
integer-only operators never fold against a float operand; `>>` never
folds. -/
def evalBinaryOp {F : Type} (m : FloatModel F) (op : BinaryOperator) :
    Value F → Value F → Except Unit (Option (Value F))
  | .int a, .int b =>
    match op with
    | .plus => .ok (some (.int (wrapI128 (a + b))))
    | .minus => .ok (some (.int (wrapI128 (a - b))))
    | .star => .ok (some (.int (wrapI128 (a * b))))
    | .slash => do .ok (some (.int (← i128Div a b)))
    | .pipe => .ok (some (.int (a.lor b)))
    | .caret => .ok (some (.int (a.xor b)))
    | .ampersand => .ok (some (.int (a.land b)))
    | .angleLeft => .ok (some (.int (if a < b then 1 else 0)))
    | .angleRight => .ok (some (.int (if a > b then 1 else 0)))
    | .doubleEquals => .ok (some (.int (if a = b then 1 else 0)))
    | .doubleAmpersand => .ok (some (.int (if a ≠ 0 ∧ b ≠ 0 then 1 else 0)))
    | .doublePipe => .ok (some (.int (if a ≠ 0 ∨ b ≠ 0 then 1 else 0)))
    | .bangEquals => .ok (some (.int (if a ≠ b then 1 else 0)))
    | .percent => do .ok (some (.int (← i128Rem a b)))
    | .angleLeftEquals => .ok (some (.int (if a ≤ b then 1 else 0)))
    | .angleRightEquals => .ok (some (.int (if a ≥ b then 1 else 0)))
    | .doubleAngleLeft => .ok (some (.int (i128Shl a b)))
    | .doubleAngleRight => .ok none
  | .int a, .float b => evalBinaryOpFloat m op (m.ofInt a) b
  | .float a, .int b => evalBinaryOpFloat m op a (m.ofInt b)
  | .float a, .float b => evalBinaryOpFloat m op a b

where
  /-- The float arms of the `do_op_custom!` match: present only for the
  operators whose macro invocation supplies a float body; the integer-only
  operators (`| ^ & % <<`) and `>>` fall to the catch-all `None`. -/
  evalBinaryOpFloat (m : FloatModel F) (op : BinaryOperator) (a b : F) :
      Except Unit (Option (Value F)) :=
    match op with
    | .plus => .ok (some (.float (m.add a b)))
    | .minus => .ok (some (.float (m.sub a b)))
    | .star => .ok (some (.float (m.mul a b)))
    | .slash => .ok (some (.float (m.div a b)))
    | .angleLeft => .ok (some (.int (if m.lt a b then 1 else 0)))
    | .angleRight => .ok (some (.int (if m.gt a b then 1 else 0)))
    | .doubleEquals => .ok (some (.int (if m.beq a b then 1 else 0)))
    | .doubleAmpersand =>
      .ok (some (.int (if !m.beq a m.zero && !m.beq b m.zero then 1 else 0)))
    | .doublePipe =>
      .ok (some (.int (if !m.beq a m.zero || !m.beq b m.zero then 1 else 0)))
    | .bangEquals => .ok (some (.int (if !m.beq a b then 1 else 0)))
    | .angleLeftEquals => .ok (some (.int (if m.le a b then 1 else 0)))
    | .angleRightEquals => .ok (some (.int (if m.ge a b then 1 else 0)))
    | _ => .ok none


/-- The unary operators on which `fold_unary_op` returns early ("avoid folding
a lvalue", lines 298–305): increment/decrement and address-of. -/
def isLvalueOp : UnaryOperator → Bool
  | .doublePlusPre | .doubleMinusPre | .doublePlusPost | .doubleMinusPost
  | .ampersand => true
  | _ => false

/-- The operator dispatch of `fold_unary_op` (lines 283–306), for the
non-early-return operators: `none` means "not folded" (the `or_else`
materialisation fires). Unary ops never panic in release profile. -/
def evalUnaryOp {F : Type} (m : FloatModel F) (op : UnaryOperator) :
    Value F → Option (Value F)
  | .int i =>
    match op with
    | .bang => some (.int (if i = 0 then 1 else 0))
    | .plus => some (.int i)
    | .minus => some (.int (wrapI128 (-i)))
    | .star => none
    | .tilde => some (.int (-i - 1))
    | _ => none
  | .float f =>
    match op with
    | .bang => some (.int (if m.beq f m.zero then 1 else 0))
    | .plus => some (.float f)
    | .minus => some (.float (m.neg f))
    | .star => none
    | .tilde => none
    | _ => none

mutual
/-- `Folder::fold_expr` (lines 157–198), functionalised: returns the
rewritten expression (the in-place mutations that happened before any early
return) together with the folded value, or `Except.error` for a panic. -/
def foldExpr {F : Type} (m : FloatModel F) (fact : Fact F) :
    Expression F → Except Unit (Expression F × Option (Value F))
  | .assignment lhs opSpan (.mk rspan rdata) => do
    let (rhsD, v) ← foldExpr m fact rdata
    match v with
    | none => pure (.assignment lhs opSpan (.mk rspan rhsD), none)
    | some folded =>
      -- rhs is replaced by its literal; the assignment itself never folds
      pure (.assignment lhs opSpan (replaceWithLiteral (.mk rspan rhsD) folded), none)
  | .binary (.mk lspan ldata) op (.mk rspan rdata) => do
    -- fold_binary_op (lines 200–271); `?` on the lhs skips the rhs entirely
    let (lhsD, v1) ← foldExpr m fact ldata
    match v1 with
    | none => pure (.binary (.mk lspan lhsD) op (.mk rspan rdata), none)
    | some f1 => do
      let (rhsD, v2) ← foldExpr m fact rdata
      match v2 with
      | none => pure (.binary (.mk lspan lhsD) op (.mk rspan rhsD), none)
      | some f2 => do
        let r ← evalBinaryOp m op.data f1 f2
        match r with
        | some v => pure (.binary (.mk lspan lhsD) op (.mk rspan rhsD), some v)
        | none =>
          -- or_else: both operands are materialised as literals
          pure (.binary (replaceWithLiteral (.mk lspan lhsD) f1) op
                  (replaceWithLiteral (.mk rspan rhsD) f2), none)
  | .arraySubscript (.mk lspan ldata) (.mk rspan rdata) => do
    let (lhsD, v1) ← foldExpr m fact ldata
    let lhs' := match v1 with
                | some folded => replaceWithLiteral (.mk lspan lhsD) folded
                | none => ExpressionNode.mk lspan lhsD
    let (rhsD, v2) ← foldExpr m fact rdata
    let rhs' := match v2 with
                | some folded => replaceWithLiteral (.mk rspan rhsD) folded
                | none => ExpressionNode.mk rspan rhsD
    pure (.arraySubscript lhs' rhs', none)
  | .unary op (.mk ispan idata) => do
    -- fold_unary_op (lines 273–312)
    let (innerD, v) ← foldExpr m fact idata
    match v with
    | none => pure (.unary op (.mk ispan innerD), none)
    | some innerFolded =>
      if isLvalueOp op.data then
        -- early return, no materialisation
        pure (.unary op (.mk ispan innerD), none)
      else
        match evalUnaryOp m op.data innerFolded with
        | some v => pure (.unary op (.mk ispan innerD), some v)
        | none =>
          pure (.unary op (replaceWithLiteral (.mk ispan innerD) innerFolded), none)
  | .cast ty (.mk ispan idata) => do
    let (innerD, v) ← foldExpr m fact idata
    match v with
    | none => pure (.cast ty (.mk ispan innerD), none)
    | some innerFolded =>
      -- the cast node itself never collapses
      pure (.cast ty (replaceWithLiteral (.mk ispan innerD) innerFolded), none)
  | .functionCall (.mk fid args) => do
    let args' ← foldArgs m fact args
    pure (.functionCall (.mk fid args'), none)
  | .ident i =>
    pure (.ident i,
      match fact with
      | some (name, value) => if name = i.data then some value else none
      | none => none)
  | .literal lit => pure (.literal lit, foldLiteral lit.data)

/-- The argument loop of the `FunctionCall` arm (lines 184–191): each
argument folds independently and is replaced when it folds. -/
def foldArgs {F : Type} (m : FloatModel F) (fact : Fact F) :
    List (ExpressionNode F) → Except Unit (List (ExpressionNode F))
  | [] => pure []
  | (.mk aspan adata) :: rest => do
    let (argD, v) ← foldExpr m fact adata
    let arg' := match v with
                | some folded => replaceWithLiteral (.mk aspan argD) folded
                | none => ExpressionNode.mk aspan argD
    let rest' ← foldArgs m fact rest
    pure (arg' :: rest')
end

/-- Whether an expression is a literal node (the shape the `fold_expr_node`
short-circuit tests for). -/
def isLiteralExpr {F : Type} : Expression F → Bool
  | .literal _ => true
  | _ => false

/-- `Folder::fold_expr_node` (lines 142–155): literal nodes short-circuit
without rewriting; otherwise the node is replaced by its literal when the
expression folds. -/
def foldExprNode {F : Type} (m : FloatModel F) (fact : Fact F)
    (n : ExpressionNode F) : Except Unit (ExpressionNode F × Option (Value F)) :=
  match n with
  | .mk span (.literal lit) => pure (.mk span (.literal lit), foldLiteral lit.data)
  | .mk span d => do
    let (d', v) ← foldExpr m fact d
    match v with
    | some folded => pure (replaceWithLiteral (.mk span d') folded, some folded)
    | none => pure (.mk span d', none)

/-- The optional-expression-node pattern of the statement fold: fold the node
(its value is discarded by the callers below). -/
def foldOptExprNode {F : Type} (m : FloatModel F) (fact : Fact F) :
    Option (ExpressionNode F) → Except Unit (Option (ExpressionNode F))
  | none => pure none
  | some n => do
    let (n', _) ← foldExprNode m fact n
    pure (some n')

/-- The array-part loop of `fold_declaration` (lines 57–64): `Known` length
expressions are folded (and replaced when they fold). -/
def foldArrayParts {F : Type} (m : FloatModel F) (fact : Fact F) :
    List (ArrayDeclarationNode F) → Except Unit (List (ArrayDeclarationNode F))
  | [] => pure []
  | (.mk s .unknown) :: rest => do
    pure ((.mk s .unknown) :: (← foldArrayParts m fact rest))
  | (.mk s (.known e)) :: rest => do
    let (e', _) ← foldExprNode m fact e
    pure ((.mk s (.known e')) :: (← foldArrayParts m fact rest))

/-- `Folder::fold_declaration` (lines 41–69): the initializer is folded first
under the incoming fact; a literal-folding initializer of a non-array
declaration yields the new fact `(declared name, value)`. -/
def foldDeclaration {F : Type} (m : FloatModel F) (fact : Fact F) :
    Declaration F → Except Unit (Declaration F × Fact F)
  | .variableDecl (.mk typeName ident arrayParts initializer) => do
    let (initializer', res) ← match initializer with
      | some (opSpan, n) => do
        let (n', v) ← foldExprNode m fact n
        pure (some (opSpan, n'), v.map fun value => (ident.data, value))
      | none => pure (none, none)
    if arrayParts.isEmpty then
      pure (.variableDecl (.mk typeName ident arrayParts initializer'), res)
    else do
      let arrayParts' ← foldArrayParts m fact arrayParts
      pure (.variableDecl (.mk typeName ident arrayParts' initializer'), none)
  | .functionDeclaration fd => pure (.functionDeclaration fd, none)

mutual
/-- `Folder::fold_statement` (lines 78–126): only a declaration returns a
fact; every other statement falls through to `None`. Control-flow statements
fold their controlling expressions under a reset (`None`) fact and their
bodies as independent blocks. -/
def foldStatement {F : Type} (m : FloatModel F) (fact : Fact F) :
    Statement F → Except Unit (Statement F × Fact F)
  | .declaration decl => do
    let (decl', fact') ← foldDeclaration m fact decl
    pure (.declaration decl', fact')
  | .expression n => do
    let (n', _) ← foldExprNode m fact n
    pure (.expression n', none)
  | .ifStmt (.mk condition ifBody elseBody) => do
    let (condition', _) ← foldExprNode m none condition
    let ifBody' ← foldBlockStatement m ifBody
    let elseBody' ← match elseBody with
      | some b => do pure (some (← foldBlockStatement m b))
      | none => pure none
    pure (.ifStmt (.mk condition' ifBody' elseBody'), none)
  | .switch (.mk expr cases) => do
    let cases' ← foldSwitchCases m cases
    pure (.switch (.mk expr cases'), none)
  | .whileStmt (.mk condition body) => do
    let (condition', _) ← foldExprNode m none condition
    let body' ← foldBlockStatement m body
    pure (.whileStmt (.mk condition' body'), none)
  | .forStmt (.mk init condition iter body) => do
    let init' ← match init with
      | some (.mk s d) => do
        let (d', _) ← foldStatement m none d
        pure (some (StatementNode.mk s d'))
      | none => pure none
    let condition' ← foldOptExprNode m none condition
    let iter' ← foldOptExprNode m none iter
    let body' ← foldBlockStatement m body
    pure (.forStmt (.mk init' condition' iter' body'), none)
  | .breakStmt => pure (.breakStmt, none)
  | .continueStmt => pure (.continueStmt, none)
  | .ret kw (some n) => do
    let (n', _) ← foldExprNode m fact n
    pure (.ret kw (some n'), none)
  | .ret kw none => pure (.ret kw none, none)
  | .blockStatement bs => do
    pure (.blockStatement (← foldBlockStatement m bs), none)

/-- `Folder::fold_switch` (lines 128–140): a case's controlling expression is
folded via `fold_expr` (its node is never replaced by a literal); bodies are
independent blocks. -/
def foldSwitchCases {F : Type} (m : FloatModel F) :
    List (SwitchCase F) → Except Unit (List (SwitchCase F))
  | [] => pure []
  | .exprCase (.mk espan edata) body :: rest => do
    let (edata', _) ← foldExpr m none edata
    let body' ← foldBlockStatement m body
    pure (.exprCase (.mk espan edata') body' :: (← foldSwitchCases m rest))
  | .defaultCase body :: rest => do
    let body' ← foldBlockStatement m body
    pure (.defaultCase body' :: (← foldSwitchCases m rest))

/-- `Folder::fold_block_statement` (lines 71–76): forward walk threading the
fact, starting from `None`. -/
def foldBlockStatement {F : Type} (m : FloatModel F) :
    BlockStatementNode F → Except Unit (BlockStatementNode F)
  | .mk stmts => do
    pure (.mk (← foldStmts m none stmts))

/-- The statement loop inside `fold_block_statement`. -/
def foldStmts {F : Type} (m : FloatModel F) (fact : Fact F) :
    List (StatementNode F) → Except Unit (List (StatementNode F))
  | [] => pure []
  | (.mk s d) :: rest => do
    let (d', fact') ← foldStatement m fact d
    let rest' ← foldStmts m fact' rest
    pure (StatementNode.mk s d' :: rest')
end

/-- `Folder::fold_external_declaration` (lines 30–39): function bodies fold
as blocks; a global declaration folds with no incoming fact and its produced
fact is discarded. -/
def foldExternalDeclaration {F : Type} (m : FloatModel F) :
    ExternalDeclaration F → Except Unit (ExternalDeclaration F)
  | .functionDefinition fd => do
    let body' ← foldBlockStatement m fd.body
    pure (.functionDefinition { fd with body := body' })
  | .declaration d => do
    let (d', _) ← foldDeclaration m none d
    pure (.declaration d')

/-- The loop of `Folder::fold` (lines 24–28). -/
def foldExternalDecls {F : Type} (m : FloatModel F) :
    List (ExternalDeclarationNode F) → Except Unit (List (ExternalDeclarationNode F))
  | [] => pure []
  | n :: rest => do
    let d' ← foldExternalDeclaration m n.data
    pure ({ n with data := d' } :: (← foldExternalDecls m rest))

/-- `const_fold` (lines 7–9): the whole pass. -/
def constFold {F : Type} (m : FloatModel F) (ast : Ast F) : Except Unit (Ast F) := do
  pure { globalDeclarations := (← foldExternalDecls m ast.globalDeclarations) }

end CF

/-! ## src crate constant-folding pass (`src/passes/const_fold.rs`)

Namespace `SF`.  The binary crate's earlier, smaller AST (`src/ast.rs`):
statements are declaration / assignment / expression / block; expressions are
binary / unary / cast / literal / identifier.  The folded domain is
`LiteralValue` itself. -/

namespace SF

/-- `ast::BinaryOperator` of the src crate (no shift operators). -/
inductive BinaryOperator where
  | plus | minus | star | slash | pipe | caret | ampersand
  | angleLeft | angleRight | doubleEquals | doubleAmpersand | doublePipe
  | bangEquals | percent | angleLeftEquals | angleRightEquals
deriving DecidableEq, Repr

/-- `ast::BinaryOperatorNode` of the src crate. -/
structure BinaryOperatorNode where
  span : Span
  data : BinaryOperator
deriving DecidableEq, Repr

/-- `ast::LiteralValue` (`Integer(i128) | Float(f64)`). -/
inductive LiteralValue (F : Type) where
  | integer (i : Int)
  | float (f : F)
deriving DecidableEq, Repr

/-- `ast::Literal`: wraps a value. -/
structure Literal (F : Type) where
  value : LiteralValue F
deriving DecidableEq, Repr

/-- `ast::LiteralNode`. -/
structure LiteralNode (F : Type) where
  span : Span
  data : Literal F
deriving DecidableEq, Repr

mutual
/-- `ast::Expression` of the src crate. -/
inductive Expression (F : Type) where
  | binary (lhs : ExpressionNode F) (op : BinaryOperatorNode) (rhs : ExpressionNode F)
  | unary (op : UnaryOperatorNode) (inner : ExpressionNode F)
  | cast (ty : QualifiedTypeNode) (inner : ExpressionNode F)
  | literal (lit : LiteralNode F)
  | ident (i : IdentNode)
/-- `ast::ExpressionNode` of the src crate. -/
inductive ExpressionNode (F : Type) where
  | mk (span : Span) (data : Expression F)
end

/-- The span of an expression node. -/
def ExpressionNode.span {F : Type} : ExpressionNode F → Span
  | .mk s _ => s

/-- The expression of an expression node. -/
def ExpressionNode.data {F : Type} : ExpressionNode F → Expression F
  | .mk _ d => d

mutual
/-- `ast::Statement` of the src crate: note the dedicated assignment
statement form. -/
inductive Statement (F : Type) where
  | declaration (typeName : QualifiedTypeNode) (ident : IdentNode)
      (initializer : Option (ExpressionNode F))
  | assignment (ident : IdentNode) (rhs : ExpressionNode F)
  | expression (e : ExpressionNode F)
  | blockStatement (bs : BlockStatement F)
/-- `ast::StatementNode` of the src crate. -/
inductive StatementNode (F : Type) where
  | mk (span : Span) (data : Statement F)
/-- `ast::BlockStatement` of the src crate. -/
inductive BlockStatement (F : Type) where
  | mk (stmts : List (StatementNode F))
end

/-- `ast::Ast` of the src crate. -/
structure Ast (F : Type) where
  global : BlockStatement F

/-- The copy-propagation fact (`Option<(&str, LiteralValue)>`). -/
abbrev Fact (F : Type) := Option (String × LiteralValue F)

/-- `replace_with_literal` (src crate, lines 199–204). -/
def replaceWithLiteral {F : Type} (n : ExpressionNode F) (v : LiteralValue F) :
    ExpressionNode F :=
  .mk n.span (.literal { span := n.span, data := { value := v } })

/-- The operator dispatch of the src crate's `fold_binary_op`
(lines 130–151): same macro structure as comp_lib's, without the shift
operators. `Except.error` models a Rust panic. -/
def evalBinaryOp {F : Type} (m : FloatModel F) (op : BinaryOperator) :
    LiteralValue F → LiteralValue F → Except Unit (Option (LiteralValue F))
  | .integer a, .integer b =>
    match op with
    | .plus => .ok (some (.integer (wrapI128 (a + b))))
    | .minus => .ok (some (.integer (wrapI128 (a - b))))
    | .star => .ok (some (.integer (wrapI128 (a * b))))
    | .slash => do .ok (some (.integer (← i128Div a b)))
    | .pipe => .ok (some (.integer (a.lor b)))
    | .caret => .ok (some (.integer (a.xor b)))
    | .ampersand => .ok (some (.integer (a.land b)))
    | .angleLeft => .ok (some (.integer (if a < b then 1 else 0)))
    | .angleRight => .ok (some (.integer (if a > b then 1 else 0)))
    | .doubleEquals => .ok (some (.integer (if a = b then 1 else 0)))
    | .doubleAmpersand => .ok (some (.integer (if a ≠ 0 ∧ b ≠ 0 then 1 else 0)))
    | .doublePipe => .ok (some (.integer (if a ≠ 0 ∨ b ≠ 0 then 1 else 0)))
    | .bangEquals => .ok (some (.integer (if a ≠ b then 1 else 0)))
    | .percent => do .ok (some (.integer (← i128Rem a b)))
    | .angleLeftEquals => .ok (some (.integer (if a ≤ b then 1 else 0)))
    | .angleRightEquals => .ok (some (.integer (if a ≥ b then 1 else 0)))
  | .integer a, .float b => evalBinaryOpFloat m op (m.ofInt a) b
  | .float a, .integer b => evalBinaryOpFloat m op a (m.ofInt b)
  | .float a, .float b => evalBinaryOpFloat m op a b

where
  /-- Float arms of the src crate's `do_op_custom!`; the integer-only
  operators fall to the catch-all `None`. -/
  evalBinaryOpFloat (m : FloatModel F) (op : BinaryOperator) (a b : F) :
      Except Unit (Option (LiteralValue F)) :=
    match op with
    | .plus => .ok (some (.float (m.add a b)))
    | .minus => .ok (some (.float (m.sub a b)))
    | .star => .ok (some (.float (m.mul a b)))
    | .slash => .ok (some (.float (m.div a b)))
    | .angleLeft => .ok (some (.integer (if m.lt a b then 1 else 0)))
    | .angleRight => .ok (some (.integer (if m.gt a b then 1 else 0)))
    | .doubleEquals => .ok (some (.integer (if m.beq a b then 1 else 0)))
    | .doubleAmpersand =>
      .ok (some (.integer (if !m.beq a m.zero && !m.beq b m.zero then 1 else 0)))
    | .doublePipe =>
      .ok (some (.integer (if !m.beq a m.zero || !m.beq b m.zero then 1 else 0)))
    | .bangEquals => .ok (some (.integer (if !m.beq a b then 1 else 0)))
    | .angleLeftEquals => .ok (some (.integer (if m.le a b then 1 else 0)))
    | .angleRightEquals => .ok (some (.integer (if m.ge a b then 1 else 0)))
    | _ => .ok none

/-- The operator dispatch of the src crate's `fold_unary_op`
(lines 170–190); unlike comp_lib's, there is no early return: every
non-folding operator goes through the `or_else` materialisation. -/
def evalUnaryOp {F : Type} (m : FloatModel F) (op : UnaryOperator) :
    LiteralValue F → Option (LiteralValue F)
  | .integer i =>
    match op with
    | .bang => some (.integer (if i = 0 then 1 else 0))
    | .plus => some (.integer i)
    | .minus => some (.integer (wrapI128 (-i)))
    | .tilde => some (.integer (-i - 1))
    | _ => none
  | .float f =>
    match op with
    | .bang => some (.integer (if m.beq f m.zero then 1 else 0))
    | .plus => some (.float f)
    | .minus => some (.float (m.neg f))
    | _ => none

/-- `Folder::fold_expr` of the src crate (lines 69–87), functionalised. -/
def foldExpr {F : Type} (m : FloatModel F) (fact : Fact F) :
    Expression F → Except Unit (Expression F × Option (LiteralValue F))
  | .binary (.mk lspan ldata) op (.mk rspan rdata) => do
    -- fold_binary_op (lines 89–158)
    let (lhsD, v1) ← foldExpr m fact ldata
    match v1 with
    | none => pure (.binary (.mk lspan lhsD) op (.mk rspan rdata), none)
    | some f1 => do
      let (rhsD, v2) ← foldExpr m fact rdata
      match v2 with
      | none => pure (.binary (.mk lspan lhsD) op (.mk rspan rhsD), none)
      | some f2 => do
        let r ← evalBinaryOp m op.data f1 f2
        match r with
        | some v => pure (.binary (.mk lspan lhsD) op (.mk rspan rhsD), some v)
        | none =>
          pure (.binary (replaceWithLiteral (.mk lspan lhsD) f1) op
                  (replaceWithLiteral (.mk rspan rhsD) f2), none)
  | .unary op (.mk ispan idata) => do
    -- fold_unary_op (lines 160–196)
    let (innerD, v) ← foldExpr m fact idata
    match v with
    | none => pure (.unary op (.mk ispan innerD), none)
    | some innerFolded =>
      match evalUnaryOp m op.data innerFolded with
      | some v => pure (.unary op (.mk ispan innerD), some v)
      | none =>
        pure (.unary op (replaceWithLiteral (.mk ispan innerD) innerFolded), none)
  | .cast ty (.mk ispan idata) => do
    let (innerD, v) ← foldExpr m fact idata
    match v with
    | none => pure (.cast ty (.mk ispan innerD), none)
    | some innerFolded =>
      pure (.cast ty (replaceWithLiteral (.mk ispan innerD) innerFolded), none)
  | .literal lit => pure (.literal lit, some lit.data.value)
  | .ident i =>
    pure (.ident i,
      match fact with
      | some (name, value) => if name = i.data then some value else none
      | none => none)

/-- `Folder::fold_expr_node` of the src crate (lines 54–67). -/
def foldExprNode {F : Type} (m : FloatModel F) (fact : Fact F)
    (n : ExpressionNode F) : Except Unit (ExpressionNode F × Option (LiteralValue F)) :=
  match n with
  | .mk span (.literal lit) => pure (.mk span (.literal lit), some lit.data.value)
  | .mk span d => do
    let (d', v) ← foldExpr m fact d
    match v with
    | some folded => pure (replaceWithLiteral (.mk span d') folded, some folded)
    | none => pure (.mk span d', none)

mutual
/-- `Folder::fold_statement` of the src crate (lines 28–52): a declaration
with a folding initializer *and* an assignment with a folding right-hand side
both produce the fact; a plain expression statement passes the incoming fact
through unchanged; a nested block resets it. -/
def foldStatement {F : Type} (m : FloatModel F) (fact : Fact F) :
    Statement F → Except Unit (Statement F × Fact F)
  | .declaration typeName ident initializer => do
    match initializer with
    | some n => do
      let (n', v) ← foldExprNode m fact n
      pure (.declaration typeName ident (some n'), v.map fun value => (ident.data, value))
    | none => pure (.declaration typeName ident none, none)
  | .assignment ident rhs => do
    let (rhs', v) ← foldExprNode m fact rhs
    pure (.assignment ident rhs', v.map fun value => (ident.data, value))
  | .expression n => do
    let (n', _) ← foldExprNode m fact n
    pure (.expression n', fact)
  | .blockStatement bs => do
    pure (.blockStatement (← foldBlockStatement m bs), none)

/-- `Folder::fold_block_statement` of the src crate (lines 21–26). -/
def foldBlockStatement {F : Type} (m : FloatModel F) :
    BlockStatement F → Except Unit (BlockStatement F)
  | .mk stmts => do
    pure (.mk (← foldStmts m none stmts))

/-- The statement loop inside the src crate's `fold_block_statement`. -/
def foldStmts {F : Type} (m : FloatModel F) (fact : Fact F) :
    List (StatementNode F) → Except Unit (List (StatementNode F))
  | [] => pure []
  | (.mk s d) :: rest => do
    let (d', fact') ← foldStatement m fact d
    let rest' ← foldStmts m fact' rest
    pure (StatementNode.mk s d' :: rest')
end

/-- `const_fold` of the src crate (lines 6–8). -/
def constFold {F : Type} (m : FloatModel F) (ast : Ast F) : Except Unit (Ast F) := do
  pure { global := (← foldBlockStatement m ast.global) }

end SF


/-! ## AST-to-IR lowering engine (`comp_lib/src/passes/lower_ast/mod.rs`)

Namespace `LO`.  `mod.rs` and `util.rs` are among the sources; their
collaborators (`expr.rs`, `symbol_table.rs`, `diagnostic.rs`, `ir/*.rs`,
the AST module of this commit) are not and are modelled from the spec
(sections 3, 4.3, 4.4, 4.5, 6, 7), as marked on each definition. -/

namespace LO

/-- Modelled from the spec: the diagnostics emitted through
`DiagnosticBuilder` — a source span plus a message tag from the closed set of
section 6/7 ("already defined here", "unimplemented feature", undeclared
identifier, "literal out of range", assignment to const). -/
inductive Diagnostic where
  | alreadyDefined (span : Span) (name : String) (originalSpan : Span)
  | unimplemented (span : Span) (tag : String)
  | undeclaredIdent (span : Span) (name : String)
  | literalOutOfRange (span : Span)
  | assignToConst (span : Span)
deriving DecidableEq, Repr

/-- Modelled from the spec (section 4.4): `AggregateResult` — a diagnostic
set plus, where meaningful, a degraded or absent payload; zero diagnostics on
the pure success path. -/
structure AggregateResult (α : Type) where
  diags : List Diagnostic
  val : Option α
deriving DecidableEq, Repr

/-- Modelled from the spec: `AggregateResult::new_ok`. -/
def AggregateResult.newOk {α : Type} (v : α) : AggregateResult α := ⟨[], some v⟩

/-- Modelled from the spec: `AggregateResult::new_err`. -/
def AggregateResult.newErr {α : Type} (d : Diagnostic) : AggregateResult α := ⟨[d], none⟩

/-- Modelled from the spec: `map` transforms the payload, keeping all
diagnostics. -/
def AggregateResult.map {α β : Type} (r : AggregateResult α) (f : α → β) :
    AggregateResult β := ⟨r.diags, r.val.map f⟩

/-- Modelled from the spec: `zip` merges the diagnostics of both operands and
pairs the payloads when both are present. -/
def AggregateResult.zip {α β : Type} (r : AggregateResult α) (s : AggregateResult β) :
    AggregateResult (α × β) :=
  ⟨r.diags ++ s.diags,
   match r.val, s.val with
   | some a, some b => some (a, b)
   | _, _ => none⟩

/-- Modelled from the spec: `and_then` invokes the success continuation only
when a payload is present, merging the continuation's diagnostics. -/
def AggregateResult.andThen {α β : Type} (r : AggregateResult α)
    (f : α → AggregateResult β) : AggregateResult β :=
  match r.val with
  | some v => let s := f v; ⟨r.diags ++ s.diags, s.val⟩
  | none => ⟨r.diags, none⟩

/-- Modelled from the spec: the fold-into-accumulator combinator `add_to` —
diagnostics always merge into the accumulator; the combining closure runs
when both the accumulator's and this result's payloads are present; a failed
element leaves the accumulator's payload intact (unaffected items still lower
alongside failing ones, section 7). -/
def AggregateResult.addTo {α β : Type} (r : AggregateResult β)
    (acc : AggregateResult α) (f : α → β → α) : AggregateResult α :=
  ⟨acc.diags ++ r.diags,
   match acc.val, r.val with
   | some v, some s => some (f v s)
   | some v, none => some v
   | none, _ => none⟩

mutual
/-- Modelled from the spec (section 4.2): `ir::ctype::CType` — a scalar
(arithmetic or pointer) or, compositionally, an array; structural equality. -/
inductive CType where
  | scalar (s : Scalar)
  | array (inner : CType) (length : Option Nat)
  | voidTy
/-- Modelled from the spec: `ir::ctype::Scalar`. -/
inductive Scalar where
  | arithmetic (a : Arithmetic)
  | pointer (toTy : CType)
end

mutual
/-- Structural equality test for `CType` (the type system supports
structural equality, spec section 4.2). -/
def ctypeBeq : CType → CType → Bool
  | .scalar a, .scalar b => scalarBeq a b
  | .array a la, .array b lb => ctypeBeq a b && la == lb
  | .voidTy, .voidTy => true
  | _, _ => false
/-- Structural equality test for `Scalar`. -/
def scalarBeq : Scalar → Scalar → Bool
  | .arithmetic a, .arithmetic b => a == b
  | .pointer a, .pointer b => ctypeBeq a b
  | _, _ => false
end

/-- Modelled from the spec: `Arithmetic::promote` (`ctype.rs` is not among
the sources) — the type an operand widens to before arithmetic or variadic
passing: sub-`int` integer forms widen to the target's `int` (every value of
an 8/16-bit form fits the 32-bit signed `int`); everything else is unchanged.
The Rust call site uses `promote().0`, the promoted type. -/
def promote : Arithmetic → Arithmetic
  | .char | .signedChar | .unsignedChar | .signedShortInt | .unsignedShortInt =>
    .signedInt
  | a => a

/-- Modelled from the spec (section 3): a symbol-table item. -/
structure Item where
  ty : CType
  isConst : Bool
  originalSpan : Span
  initialized : Bool

/-- Modelled from the spec (section 4.3): the scoped symbol table — one
growing arena of items indexed by stable id, plus a chain of per-scope
name-to-id maps, innermost scope first. -/
structure ScopedTable where
  items : List Item
  scopes : List (List (String × Nat))

/-- Modelled from the spec: `declare` — inserts into the innermost scope; on
a name conflict within that same scope returns the prior id without mutating
state. A fresh id is the next arena index. -/
def ScopedTable.declare (st : ScopedTable) (name : String) (item : Item) :
    ScopedTable × Except Nat Nat :=
  match st.scopes with
  | [] => (st, .error 0)    -- unreachable: lowering always runs inside a scope
  | scope :: outer =>
    match scope.lookup name with
    | some existingId => (st, .error existingId)
    | none =>
      let id := st.items.length
      ({ items := st.items ++ [item], scopes := ((name, id) :: scope) :: outer },
       .ok id)

/-- The scope-chain walk of `lookup`. -/
def lookupChain (name : String) : List (List (String × Nat)) → Option Nat
  | [] => none
  | scope :: outer =>
    match scope.lookup name with
    | some id => some id
    | none => lookupChain name outer

/-- Modelled from the spec: `lookup` — innermost-to-outermost, first match
wins (shadowing). -/
def ScopedTable.lookupName (st : ScopedTable) (name : String) : Option Nat :=
  lookupChain name st.scopes

/-- Modelled from the spec: `get(id)` — arena access by stable id, valid even
after the declaring scope has closed. Lowering only ever calls it with ids it
obtained from `declare`/`lookup`, so the fallback item is never read. -/
def ScopedTable.get (st : ScopedTable) (id : Nat) : Item :=
  (st.items.get? id).getD
    { ty := .voidTy, isConst := false, originalSpan := ⟨0, 0⟩, initialized := false }

/-- Table well-formedness (spec section 4.3 storage invariant): every id
reachable through the scope chain is an index into the item arena. Holds for
the empty table and is preserved by `declare`. -/
def TableWF (st : ScopedTable) : Prop :=
  ∀ scope ∈ st.scopes, ∀ p ∈ scope, p.2 < st.items.length

/-- Modelled from the spec: `ir::expr::LvalueExpr` — a location identified by
symbol id, never by name. -/
inductive LvalueExpr where
  | ident (id : Nat)
deriving DecidableEq, Repr

/-- Modelled from the spec: `ir::expr::LvalueExprNode` (fields as used by
`mod.rs`: span, is_const, ty, expr). -/
structure LvalueExprNode where
  span : Span
  isConst : Bool
  ty : CType
  expr : LvalueExpr

mutual
/-- Modelled from the spec: `ir::expr::Expr` — the expression forms the
modelled lowering emits: integer/float constants, lvalue uses, casts,
assignments. -/
inductive Expr (F : Type) where
  | constant (i : Int)
  | floatConstant (f : F)
  | lvalue (lv : LvalueExprNode)
  | cast (inner : ExprNode F)
  | assign (dst : LvalueExprNode) (rhs : ExprNode F)
/-- Modelled from the spec: `ir::expr::ExprNode` — span, resolved type,
expression. -/
inductive ExprNode (F : Type) where
  | mk (span : Span) (ty : CType) (expr : Expr F)
end

/-- The span of an IR expression node. -/
def ExprNode.span {F : Type} : ExprNode F → Span
  | .mk s _ _ => s

/-- The resolved type of an IR expression node. -/
def ExprNode.ty {F : Type} : ExprNode F → CType
  | .mk _ t _ => t

/-- The expression of an IR expression node. -/
def ExprNode.expr {F : Type} : ExprNode F → Expr F
  | .mk _ _ e => e

/-- Modelled from the spec: `ir::stmt::Stmt` (the statement forms emitted by
this commit's lowering: expression statements and printf statements). -/
inductive Stmt (F : Type) where
  | expr (e : ExprNode F)
  | printf (e : ExprNode F)

/-- Modelled from the spec: `ir::stmt::StmtNode` (fields as used by
`mod.rs`: span, stmt, comments). -/
structure StmtNode (F : Type) where
  span : Span
  stmt : Stmt F
  comments : List String

/-- Modelled from the spec: `ir::stmt::Block`. -/
structure Block (F : Type) where
  stmts : List (StmtNode F)

/-- Modelled from the spec: `ir::stmt::Root` — the global block plus the
finished symbol-table arena. -/
structure Root (F : Type) where
  global : Block F
  table : List Item

mutual
/-- Modelled from the spec: the expression forms of this commit's AST needed
by the lowering engine — identifier uses, integer and floating literals, and
explicit casts. -/
inductive LExpression (F : Type) where
  | ident (i : IdentNode)
  | intLit (i : Int)
  | floatLit (f : F)
  | castE (ty : QualifiedTypeNode) (inner : LExpressionNode F)
/-- Modelled from the spec: span + expression. -/
inductive LExpressionNode (F : Type) where
  | mk (span : Span) (data : LExpression F)
end

mutual
/-- `ast::Statement` as matched by `build_ir_from_statement` (lines 41–95):
declaration (with optional assign-span + initializer), expression statement,
printf statement, nested block (whose payload the lowering ignores). -/
inductive LStatement (F : Type) where
  | declaration (typeName : QualifiedTypeNode) (ident : IdentNode)
      (initializer : Option (Span × LExpressionNode F))
  | expression (e : LExpressionNode F)
  | printf (e : LExpressionNode F)
  | blockStatement (stmts : List (LStatementNode F))
/-- `ast::StatementNode` of this commit (span, comments, statement). -/
inductive LStatementNode (F : Type) where
  | mk (span : Span) (comments : List String) (data : LStatement F)
end

/-- The span of a statement node. -/
def LStatementNode.span {F : Type} : LStatementNode F → Span
  | .mk s _ _ => s

/-- The comments of a statement node. -/
def LStatementNode.comments {F : Type} : LStatementNode F → List String
  | .mk _ c _ => c

/-- The statement of a statement node. -/
def LStatementNode.data {F : Type} : LStatementNode F → LStatement F
  | .mk _ _ d => d

/-- `ast::Ast` of this commit: a global statement list. -/
structure LAst (F : Type) where
  global : List (LStatementNode F)

/-- Modelled from the spec: `CType::from_ast_type` — AST unqualified types map
to their `CType`; pointers map to scalar pointers. -/
def fromAstType : UnqualifiedType → CType
  | .pointerType (.mk _ (.mk _ (.mk _ inner))) => .scalar (.pointer (fromAstType inner))
  | .void => .voidTy
  | .float => .scalar (.arithmetic .float)
  | .double => .scalar (.arithmetic .double)
  | .longDouble => .scalar (.arithmetic .longDouble)
  | .char => .scalar (.arithmetic .char)
  | .signedChar => .scalar (.arithmetic .signedChar)
  | .unsignedChar => .scalar (.arithmetic .unsignedChar)
  | .signedShortInt => .scalar (.arithmetic .signedShortInt)
  | .signedInt => .scalar (.arithmetic .signedInt)
  | .signedLongInt => .scalar (.arithmetic .signedLongInt)
  | .unsignedShortInt => .scalar (.arithmetic .unsignedShortInt)
  | .unsignedInt => .scalar (.arithmetic .unsignedInt)
  | .unsignedLongInt => .scalar (.arithmetic .unsignedLongInt)

/-- `maybe_cast` (`util.rs` lines 52–62): inserts a cast node only when the
target type differs from the inner type; does not check legality. -/
def maybeCast {F : Type} (inner : ExprNode F) (toTy : CType) : ExprNode F :=
  if ctypeBeq toTy inner.ty then inner
  else .mk inner.span toTy (.cast inner)

/-- The candidate order for typing an integer literal, as pinned by the
spec's literal-fitting example: [32-bit signed int, 64-bit signed long,
64-bit unsigned long]. -/
def literalCandidates : List Arithmetic := [.signedInt, .signedLongInt, .unsignedLongInt]

/-- Modelled from the spec (section 4.5): `expr::build_ir_expr` — bottom-up
typing; an identifier resolves through the scope chain (undeclared
otherwise), an integer literal takes the first fitting candidate type
(diagnosed when none fits), a floating literal is `double`, an explicit cast
takes the cast type. Expression lowering never mutates the table. -/
def buildIrExpr {F : Type} (s : Settings) (st : ScopedTable) :
    LExpressionNode F → AggregateResult (ExprNode F)
  | .mk span (.ident i) =>
    match st.lookupName i.data with
    | some id =>
      let item := st.get id
      .newOk (.mk span item.ty
        (.lvalue { span := span, isConst := item.isConst, ty := item.ty,
                   expr := .ident id }))
    | none => .newErr (.undeclaredIdent span i.data)
  | .mk span (.intLit i) =>
    match findFirstFit i literalCandidates s with
    | some a => .newOk (.mk span (.scalar (.arithmetic a)) (.constant i))
    | none => .newErr (.literalOutOfRange span)
  | .mk span (.floatLit f) =>
    .newOk (.mk span (.scalar (.arithmetic .double)) (.floatConstant f))
  | .mk span (.castE (.mk _ (.mk _ (.mk _ uty))) inner) =>
    (buildIrExpr s st inner).map fun ie =>
      .mk span (fromAstType uty) (.cast ie)

/-- Modelled from the spec (section 4.5): `expr::assign` — the synthetic
initializing assignment; the target's const flag was cleared by the caller
for initializers, ordinary assignments are checked against it; the right-hand
side receives an implicit cast to the target type (legality validated by the
caller). -/
def assign {F : Type} (dst : LvalueExprNode) (rhs : ExprNode F)
    (stmtSpan opSpan : Span) : AggregateResult (ExprNode F) :=
  if dst.isConst then .newErr (.assignToConst opSpan)
  else .newOk (.mk stmtSpan dst.ty (.assign dst (maybeCast rhs dst.ty)))

/-- `declaration` (`mod.rs` lines 107–138): builds the item from the AST
type, declares it in the innermost scope; on conflict emits exactly one
"already defined" diagnostic citing the original declaration's span and
leaves the table untouched. -/
def declarationFn (typeName : QualifiedTypeNode) (ident : IdentNode)
    (willInit : Bool) (st : ScopedTable) :
    AggregateResult LvalueExprNode × ScopedTable :=
  match typeName with
  | .mk _ (.mk isConstSpan (.mk _ uty)) =>
    let ty := fromAstType uty
    let isConst := isConstSpan.isSome
    let item : Item := { ty := ty, isConst := isConst,
                         originalSpan := ident.span, initialized := willInit }
    match st.declare ident.data item with
    | (st', .ok id) =>
      (.newOk { span := ident.span, isConst := isConst, ty := ty,
                expr := .ident id }, st')
    | (st', .error id) =>
      (.newErr (.alreadyDefined ident.span ident.data (st.get id).originalSpan), st')

/-- The printf-argument promotion of `build_ir_from_statement`
(`mod.rs` lines 76–89): an integral arithmetic argument is cast (when
needed) to its promoted type, any other arithmetic argument to `double`;
non-arithmetic arguments pass through. -/
def printfPromote {F : Type} (ie : ExprNode F) : ExprNode F :=
  match ie.ty with
  | .scalar (.arithmetic a) =>
    if a.isIntegral then maybeCast ie (.scalar (.arithmetic (promote a)))
    else maybeCast ie (.scalar (.arithmetic .double))
  | _ => ie

/-- `build_ir_from_statement` (`mod.rs` lines 37–105): lowers one statement,
threading the scoped table. The initializer of a declaration is lowered
*before* the identifier is declared; printf arguments receive default
argument promotion; nested blocks are rejected as unimplemented. -/
def buildIrFromStatement {F : Type} (s : Settings) (stmt : LStatementNode F)
    (st : ScopedTable) : AggregateResult (Option (StmtNode F)) × ScopedTable :=
  let res : AggregateResult (Option (Stmt F)) × ScopedTable :=
    match stmt.data with
    | .declaration typeName ident initializer =>
      -- the initializer is lowered first, so the ident is not declared yet
      let initExpr : AggregateResult (Option (Span × ExprNode F)) :=
        match initializer with
        | some (opSpan, init) =>
          (buildIrExpr s st init).map fun ie => some (opSpan, ie)
        | none => .newOk none
      let (declRes, st') := declarationFn typeName ident initializer.isSome st
      ((declRes.zip initExpr).andThen fun (dst, initExpr) =>
        -- the initializing assignment is allowed to write const locations
        let dst := { dst with isConst := false }
        match initExpr.map (fun (opSpan, ie) => assign dst ie stmt.span opSpan) with
        | some e => e.map fun e => some (.expr e)
        | none => .newOk none, st')
    | .expression e =>
      ((buildIrExpr s st e).map fun ie => some (.expr ie), st)
    | .printf e =>
      (((buildIrExpr s st e).map printfPromote).map (fun ie => some (.printf ie)), st)
    | .blockStatement _ =>
      (.newErr (.unimplemented stmt.span "blocks"), st)
  (res.1.map fun so => so.map fun st1 =>
    { span := stmt.span, stmt := st1, comments := stmt.comments }, res.2)

/-- The statement loop of `build_ir_from_ast` (`mod.rs` lines 22–29). -/
def buildIrStmts {F : Type} (s : Settings) (stmts : List (LStatementNode F))
    (st : ScopedTable) (acc : AggregateResult (List (StmtNode F))) :
    AggregateResult (List (StmtNode F)) × ScopedTable :=
  match stmts with
  | [] => (acc, st)
  | stmt :: rest =>
    let (r, st') := buildIrFromStatement s stmt st
    let acc' := r.addTo acc fun v so =>
      match so with
      | some sn => v ++ [sn]
      | none => v
    buildIrStmts s rest st' acc'

/-- `build_ir_from_ast` (`mod.rs` lines 18–35): lowers the global statements
in a fresh root scope and moves the finished table into the `Root`. -/
def buildIrFromAst {F : Type} (s : Settings) (ast : LAst F) : AggregateResult (Root F) :=
  let st0 : ScopedTable := { items := [], scopes := [[]] }
  let (res, stFinal) := buildIrStmts s ast.global st0 (.newOk [])
  res.map fun stmts => { global := { stmts := stmts }, table := stFinal.items }

/-- The symbol ids referenced by a lowered IR expression. -/
def irExprIds {F : Type} : ExprNode F → List Nat
  | .mk _ _ (.constant _) => []
  | .mk _ _ (.floatConstant _) => []
  | .mk _ _ (.lvalue lv) => match lv.expr with | .ident id => [id]
  | .mk _ _ (.cast inner) => irExprIds inner
  | .mk _ _ (.assign dst rhs) =>
    (match dst.expr with | .ident id => [id]) ++ irExprIds rhs

end LO

/-- A concrete instantiation of the abstract `f64` parameter, used to state
the concrete examples: `F := Int` with its ordinary operations. (The fold
theorems hold for every `FloatModel`; this instance only serves concrete
inputs, which are all integer-valued anyway.) -/
def intFloatModel : FloatModel Int where
  add := (· + ·)
  sub := (· - ·)
  mul := (· * ·)
  div := fun a b => a / b
  neg := (- ·)
  ofInt := id
  zero := 0
  lt := fun a b => decide (a < b)
  gt := fun a b => decide (a > b)
  le := fun a b => decide (a ≤ b)
  ge := fun a b => decide (a ≥ b)
  beq := fun a b => decide (a = b)

/-! ## Theorems -/

/-- Bit-length characterisation: with enough fuel, `bitLenAux fuel n ≤ k`
exactly when `n < 2 ^ k`. -/
theorem bitLenAux_le (fuel : Nat) :
    ∀ n k : Nat, n < 2 ^ fuel → (bitLenAux fuel n ≤ k ↔ n < 2 ^ k) := by
  induction fuel with
  | zero =>
    intro n k hn
    interval_cases n
    simp [bitLenAux, Nat.pos_pow_of_pos, Nat.two_pow_pos]
  | succ fuel ih =>
    intro n k hn
    by_cases h0 : n = 0
    · subst h0
      simp [bitLenAux, Nat.two_pow_pos]
    · rw [show bitLenAux (fuel + 1) n = bitLenAux fuel (n / 2) + 1 by
        simp [bitLenAux, h0]]
      have hdiv : n / 2 < 2 ^ fuel := by
        rw [Nat.div_lt_iff_lt_mul (by norm_num)]
        calc n < 2 ^ (fuel + 1) := hn
          _ = 2 ^ fuel * 2 := by ring
      cases k with
      | zero =>
        simp only [Nat.add_one_le_iff, Nat.pow_zero, Nat.lt_one_iff]
        constructor
        · intro h; omega
        · intro h; exact absurd h h0
      | succ k =>
        rw [Nat.add_le_add_iff_right, ih (n / 2) k hdiv,
          Nat.div_lt_iff_lt_mul (by norm_num)]
        rw [show (2:Nat) ^ (k+1) = 2 ^ k * 2 by ring]

/-- The needed-bits computation of `find_first_fit` characterises exactly the
two's-complement ranges: for an `i128` value, the needed bit count is at most
`k` iff `v` lies in `[-2^k, 2^k)`. -/
theorem neededBits_le (v : Int) (k : Nat)
    (hlo : -(2 ^ 127) ≤ v) (hhi : v < 2 ^ 127) :
    ((if v < 0 then 128 - i128LeadingOnes v else 128 - i128LeadingZeros v) ≤ k) ↔
      (-(2 ^ k : Int) ≤ v ∧ v < 2 ^ k) := by
  have hK1 : (1:Nat) ≤ 2 ^ k := Nat.one_le_two_pow
  by_cases hneg : v < 0
  · simp only [hneg, if_pos, i128LeadingOnes]
    have hb : (-v - 1).toNat < 2 ^ 128 := by
      have h27 : ((2:Int) ^ 127) < 2 ^ 128 := by norm_num
      omega
    have hle128 : bitLenAux 128 (-v - 1).toNat ≤ 128 := (bitLenAux_le 128 _ 128 hb).mpr hb
    rw [show 128 - (128 - bitLenAux 128 (-v - 1).toNat) = bitLenAux 128 (-v - 1).toNat
      by omega]
    rw [bitLenAux_le 128 _ k hb]
    rw [show (2 : Int) ^ k = ((2 ^ k : Nat) : Int) by push_cast; ring]
    generalize (2 : Nat) ^ k = K at *
    omega
  · simp only [hneg, if_neg, i128LeadingZeros, not_false_iff]
    have hb : v.toNat < 2 ^ 128 := by
      have h27 : ((2:Int) ^ 127) < 2 ^ 128 := by norm_num
      omega
    have hle128 : bitLenAux 128 v.toNat ≤ 128 := (bitLenAux_le 128 _ 128 hb).mpr hb
    rw [show 128 - (128 - bitLenAux 128 v.toNat) = bitLenAux 128 v.toNat by omega]
    rw [bitLenAux_le 128 _ k hb]
    rw [show (2 : Int) ^ k = ((2 ^ k : Nat) : Int) by push_cast; ring]
    generalize (2 : Nat) ^ k = K at *
    omega

/-- The candidate scan is a first-match search. -/
theorem findFirstFitLoop_eq_find (needed : Nat) (isNeg : Bool) (s : Settings)
    (p : Arithmetic → Bool)
    (hp : ∀ o : Arithmetic,
      (needed ≤ o.sizeInBits s - (if o.isSigned || isNeg then 1 else 0)) ↔ p o = true) :
    ∀ opts : List Arithmetic, findFirstFitLoop needed isNeg s opts = opts.find? p := by
  intro opts
  induction opts with
  | nil => rfl
  | cons o rest ih =>
    simp only [findFirstFitLoop]
    by_cases h : needed ≤ o.sizeInBits s - (if o.isSigned || isNeg then 1 else 0)
    · rw [if_pos h, List.find?_cons_of_pos _ ((hp o).mp h)]
    · rw [if_neg h, ih, List.find?_cons_of_neg]
      intro habs
      exact h ((hp o).mpr habs)

/-- C8: `find_first_fit` returns the first candidate, in the caller-supplied
order, whose two's-complement range (with one bit of headroom subtracted when
the candidate is signed or the value negative) represents the value
losslessly, and `none` when no candidate fits; on the pinned candidate order
the spec's three example literals select signed long, unsigned long and
nothing respectively. -/
theorem findFirstFit_selects_first_lossless_candidate :
    (∀ (v : Int) (opts : List Arithmetic) (s : Settings),
        -(2 ^ 127) ≤ v → v < 2 ^ 127 →
        findFirstFit v opts s = opts.find? (fun o => decide (specFits v s o)))
    ∧ findFirstFit 9223372036854775807
        [.signedInt, .signedLongInt, .unsignedLongInt] ⟨.x86_64⟩ =
        some .signedLongInt
    ∧ findFirstFit 9223372036854775808
        [.signedInt, .signedLongInt, .unsignedLongInt] ⟨.x86_64⟩ =
        some .unsignedLongInt
    ∧ findFirstFit (-9223372036854775809)
        [.signedInt, .signedLongInt, .unsignedLongInt] ⟨.x86_64⟩ = none := by
  refine ⟨?_, by decide, by decide, by decide⟩
  intro v opts s hlo hhi
  simp only [findFirstFit]
  apply findFirstFitLoop_eq_find
  intro o
  rw [decide_eq_true_iff]
  unfold specFits specAvailBits
  rw [← neededBits_le v _ hlo hhi]

/-- Witness for C8: the general first-fit characterisation applied at the
concrete value 5. -/
theorem findFirstFit_selects_first_lossless_candidate_witness :
    findFirstFit 5 [.signedInt, .signedLongInt, .unsignedLongInt] ⟨.x86_64⟩ =
      ([.signedInt, .signedLongInt, .unsignedLongInt].find?
        (fun o => decide (specFits 5 ⟨.x86_64⟩ o))) :=
  findFirstFit_selects_first_lossless_candidate.1 5
    [.signedInt, .signedLongInt, .unsignedLongInt] ⟨.x86_64⟩
    (by norm_num) (by norm_num)

/-- C1: refuted on the code — both constant folders *evaluate* an integer
division (or remainder) with a folded right-hand operand of 0: the operator
dispatch reaches Rust's `a / b` (`a % b`) on `i128`, which panics
(`Except.error` in this model), instead of leaving the expression un-folded.
Shown for every left operand in both passes, and end-to-end on the constant
expression `1 / 0`. -/
theorem fold_of_div_by_zero_panics :
    (∀ (F : Type) (m : FloatModel F) (a : Int),
        CF.evalBinaryOp m .slash (.int a) (.int 0) = .error () ∧
        CF.evalBinaryOp m .percent (.int a) (.int 0) = .error () ∧
        SF.evalBinaryOp m .slash (.integer a) (.integer 0) = .error () ∧
        SF.evalBinaryOp m .percent (.integer a) (.integer 0) = .error ())
    ∧ CF.foldExprNode intFloatModel none
        (.mk ⟨0, 5⟩ (.binary (.mk ⟨0, 1⟩ (.literal ⟨⟨0, 1⟩, .dec 1⟩))
          ⟨⟨2, 1⟩, .slash⟩ (.mk ⟨4, 1⟩ (.literal ⟨⟨4, 1⟩, .dec 0⟩)))) =
        .error () := by
  refine ⟨fun F m a => ⟨?_, ?_, ?_, ?_⟩, by rfl⟩ <;>
    simp [CF.evalBinaryOp, SF.evalBinaryOp, i128Div, i128Rem, bind, Except.bind]

/-- Folding a left shift of two integer literals always folds to the shift's
value (helper for C5). -/
theorem foldExprNode_shl_lit {F : Type} (m : FloatModel F) (fact : CF.Fact F)
    (s1 s2 s3 sop : Span) (a b : Int) :
    CF.foldExprNode m fact
      (.mk s1 (.binary (.mk s2 (.literal ⟨s2, .dec a⟩)) ⟨sop, .doubleAngleLeft⟩
        (.mk s3 (.literal ⟨s3, .dec b⟩)))) =
      .ok (.mk s1 (.literal ⟨s1, .dec (i128Shl a b)⟩), some (.int (i128Shl a b))) := by
  simp [CF.foldExprNode, CF.foldExpr, CF.evalBinaryOp, CF.foldLiteral,
    CF.replaceWithLiteral, CF.litOfValue, CF.ExpressionNode.span,
    bind, Except.bind, pure, Except.pure]

/-- Folding a right shift of two integer literals never folds: the node comes
back as the same binary expression with value `none` (helper for C5). -/
theorem foldExprNode_shr_lit {F : Type} (m : FloatModel F) (fact : CF.Fact F)
    (s1 s2 s3 sop : Span) (a b : Int) :
    CF.foldExprNode m fact
      (.mk s1 (.binary (.mk s2 (.literal ⟨s2, .dec a⟩)) ⟨sop, .doubleAngleRight⟩
        (.mk s3 (.literal ⟨s3, .dec b⟩)))) =
      .ok (.mk s1 (.binary (.mk s2 (.literal ⟨s2, .dec a⟩)) ⟨sop, .doubleAngleRight⟩
        (.mk s3 (.literal ⟨s3, .dec b⟩))), none) := by
  simp [CF.foldExprNode, CF.foldExpr, CF.evalBinaryOp, CF.foldLiteral,
    CF.replaceWithLiteral, CF.litOfValue, CF.ExpressionNode.span,
    bind, Except.bind, pure, Except.pure]

/-- C5: shift folding is asymmetric. A left shift of two integer literals
always folds to its value (`1 << 2` folds to the literal 4); a right shift of
integer literals never folds, for any operands — the node stays a binary
expression (`8 >> 1` is returned unchanged). -/
theorem fold_shift_asymmetry :
    (∀ (F : Type) (m : FloatModel F) (fact : CF.Fact F) (s1 s2 s3 sop : Span)
        (a b : Int),
        CF.foldExprNode m fact
          (.mk s1 (.binary (.mk s2 (.literal ⟨s2, .dec a⟩)) ⟨sop, .doubleAngleLeft⟩
            (.mk s3 (.literal ⟨s3, .dec b⟩)))) =
          .ok (.mk s1 (.literal ⟨s1, .dec (i128Shl a b)⟩), some (.int (i128Shl a b))))
    ∧ (∀ (F : Type) (m : FloatModel F) (fact : CF.Fact F) (s1 s2 s3 sop : Span)
        (a b : Int),
        CF.foldExprNode m fact
          (.mk s1 (.binary (.mk s2 (.literal ⟨s2, .dec a⟩)) ⟨sop, .doubleAngleRight⟩
            (.mk s3 (.literal ⟨s3, .dec b⟩)))) =
          .ok (.mk s1 (.binary (.mk s2 (.literal ⟨s2, .dec a⟩)) ⟨sop, .doubleAngleRight⟩
            (.mk s3 (.literal ⟨s3, .dec b⟩))), none))
    ∧ CF.foldExprNode intFloatModel none
        (.mk ⟨0, 6⟩ (.binary (.mk ⟨0, 1⟩ (.literal ⟨⟨0, 1⟩, .dec 1⟩))
          ⟨⟨2, 2⟩, .doubleAngleLeft⟩ (.mk ⟨5, 1⟩ (.literal ⟨⟨5, 1⟩, .dec 2⟩)))) =
        .ok (.mk ⟨0, 6⟩ (.literal ⟨⟨0, 6⟩, .dec 4⟩), some (.int 4))
    ∧ CF.foldExprNode intFloatModel none
        (.mk ⟨0, 6⟩ (.binary (.mk ⟨0, 1⟩ (.literal ⟨⟨0, 1⟩, .dec 8⟩))
          ⟨⟨2, 2⟩, .doubleAngleRight⟩ (.mk ⟨5, 1⟩ (.literal ⟨⟨5, 1⟩, .dec 1⟩)))) =
        .ok (.mk ⟨0, 6⟩ (.binary (.mk ⟨0, 1⟩ (.literal ⟨⟨0, 1⟩, .dec 8⟩))
          ⟨⟨2, 2⟩, .doubleAngleRight⟩ (.mk ⟨5, 1⟩ (.literal ⟨⟨5, 1⟩, .dec 1⟩))), none) := by
  refine ⟨fun F => foldExprNode_shl_lit, fun F => foldExprNode_shr_lit, ?_,
    foldExprNode_shr_lit ..⟩
  have h := foldExprNode_shl_lit intFloatModel none ⟨0, 6⟩ ⟨0, 1⟩ ⟨5, 1⟩ ⟨2, 2⟩ 1 2
  rw [show i128Shl 1 2 = 4 by norm_num [i128Shl, wrapI128, show Int.toNat 2 = 2 from rfl]] at h
  exact h

/-- Eliminating a successful `Except` bind: both stages succeeded. -/
theorem exceptBind_ok {α β : Type} {x : Except Unit α} {f : α → Except Unit β}
    {b : β} (h : x >>= f = .ok b) : ∃ a, x = .ok a ∧ f a = .ok b := by
  cases x with
  | error e => simp [Bind.bind, Except.bind] at h
  | ok a => exact ⟨a, rfl, by simpa [Bind.bind, Except.bind] using h⟩

/-- C4 counterexample: in the comp_lib pass, folding a plain expression
statement does *not* leave the copy-propagation fact unchanged — the fact
`("x", 5)` held before this expression statement, and `None` is returned for
the next statement. -/
theorem expression_statement_resets_fact_comp_lib :
    CF.foldStatement intFloatModel (some ("x", CF.Value.int 5))
      (.expression (.mk ⟨0, 1⟩ (.literal ⟨⟨0, 1⟩, .dec 1⟩))) =
      .ok (.expression (.mk ⟨0, 1⟩ (.literal ⟨⟨0, 1⟩, .dec 1⟩)), none)
    ∧ (none : CF.Fact Int) ≠ some ("x", CF.Value.int 5) :=
  ⟨rfl, by simp⟩

/-- C4 (amended): folding a plain expression statement resets the fact to
`None` in the comp_lib pass, while the src crate's pass passes the incoming
fact through unchanged. -/
theorem expression_statement_fact_comp_lib_vs_src :
    (∀ (F : Type) (m : FloatModel F) (fact : CF.Fact F) (e : CF.ExpressionNode F)
        (s' : CF.Statement F) (f' : CF.Fact F),
        CF.foldStatement m fact (.expression e) = .ok (s', f') → f' = none)
    ∧ (∀ (F : Type) (m : FloatModel F) (fact : SF.Fact F) (e : SF.ExpressionNode F)
        (s' : SF.Statement F) (f' : SF.Fact F),
        SF.foldStatement m fact (.expression e) = .ok (s', f') → f' = fact) := by
  constructor
  · intro F m fact e s' f' h
    simp only [CF.foldStatement] at h
    obtain ⟨⟨n', v⟩, h1, h2⟩ := exceptBind_ok h
    simp only [pure, Except.pure, Except.ok.injEq, Prod.mk.injEq] at h2
    exact h2.2.symm
  · intro F m fact e s' f' h
    simp only [SF.foldStatement] at h
    obtain ⟨⟨n', v⟩, h1, h2⟩ := exceptBind_ok h
    simp only [pure, Except.pure, Except.ok.injEq, Prod.mk.injEq] at h2
    exact h2.2.symm

/-- Witness for C4 (amended), at a literal expression statement in each
pass. -/
theorem expression_statement_fact_comp_lib_vs_src_witness :
    (none : CF.Fact Int) = none ∧
    (some ("x", SF.LiteralValue.integer 5) : SF.Fact Int) = some ("x", .integer 5) :=
  ⟨expression_statement_fact_comp_lib_vs_src.1 Int intFloatModel
      (some ("x", .int 5)) (.mk ⟨0, 1⟩ (.literal ⟨⟨0, 1⟩, .dec 1⟩))
      (.expression (.mk ⟨0, 1⟩ (.literal ⟨⟨0, 1⟩, .dec 1⟩))) none rfl,
   expression_statement_fact_comp_lib_vs_src.2 Int intFloatModel
      (some ("x", .integer 5))
      (.mk ⟨0, 1⟩ (.literal { span := ⟨0, 1⟩, data := { value := .integer 3 } }))
      (.expression (.mk ⟨0, 1⟩ (.literal { span := ⟨0, 1⟩, data := { value := .integer 3 } })))
      (some ("x", .integer 5)) rfl⟩

/-- C3 counterexample: in the src crate's pass, folding the assignment
statement `x = 5` *does* set the copy-propagation fact to the assigned name:
the returned fact is `("x", 5)`. -/
theorem assignment_sets_fact_src_pass :
    SF.foldStatement intFloatModel none
      (.assignment ⟨⟨0, 1⟩, "x"⟩
        (.mk ⟨4, 1⟩ (.literal { span := ⟨4, 1⟩, data := { value := .integer 5 } }))) =
      .ok (.assignment ⟨⟨0, 1⟩, "x"⟩
        (.mk ⟨4, 1⟩ (.literal { span := ⟨4, 1⟩, data := { value := .integer 5 } })),
        some ("x", SF.LiteralValue.integer 5)) := rfl

/-- Bind preserves "every success has a `none` second component". -/
theorem exceptSndNone_bind {α γ δ : Type} {x : Except Unit α}
    {f : α → Except Unit (γ × Option δ)}
    (hf : ∀ a p, f a = .ok p → p.2 = none) :
    ∀ p, (x >>= f) = .ok p → p.2 = none := by
  intro p h
  obtain ⟨a, _, h2⟩ := exceptBind_ok h
  exact hf a p h2

/-- A `pure` with a `none` second component has it in every success. -/
theorem exceptSndNone_pure {γ δ : Type} (g : γ) :
    ∀ p : γ × Option δ, (pure (g, none) : Except Unit (γ × Option δ)) = .ok p →
      p.2 = none := by
  intro p h
  simp only [pure, Except.pure, Except.ok.injEq] at h
  rw [← h]

/-- C3 (amended): in the comp_lib pass a fact can only come out of a
declaration — folding any other statement (assignments are expression
statements there) returns the fact `None`; in the src crate's pass an
assignment statement with a literal right-hand side sets the fact to the
assigned name and folded value. -/
theorem facts_only_from_declarations_comp_lib_vs_src :
    (∀ (F : Type) (m : FloatModel F) (fact : CF.Fact F) (s s' : CF.Statement F)
        (f' : CF.Fact F),
        CF.foldStatement m fact s = .ok (s', f') → f' ≠ none →
        ∃ d d', s = .declaration d ∧ s' = .declaration d')
    ∧ (∀ (F : Type) (m : FloatModel F) (fact : SF.Fact F) (ident : IdentNode)
        (sp : Span) (lit : SF.LiteralNode F),
        SF.foldStatement m fact (.assignment ident (.mk sp (.literal lit))) =
          .ok (.assignment ident (.mk sp (.literal lit)),
               some (ident.data, lit.data.value))) := by
  constructor
  · intro F m fact s s' f' h hne
    rw [CF.foldStatement.eq_def] at h
    cases s with
    | declaration d =>
      obtain ⟨⟨d1, f1⟩, h1, h2⟩ := exceptBind_ok h
      simp only [pure, Except.pure, Except.ok.injEq, Prod.mk.injEq] at h2
      exact ⟨d, d1, rfl, h2.1.symm⟩
    | expression e =>
      obtain ⟨⟨n1, v1⟩, h1, h⟩ := exceptBind_ok h
      simp only [pure, Except.pure, Except.ok.injEq, Prod.mk.injEq] at h
      exact absurd h.2.symm hne
    | ifStmt i =>
      obtain ⟨c, ib, eb⟩ := i
      obtain ⟨⟨c1, v1⟩, h1, h⟩ := exceptBind_ok h
      obtain ⟨ib1, h2, h⟩ := exceptBind_ok h
      cases eb with
      | some b =>
        obtain ⟨b1, h3, h⟩ := exceptBind_ok h
        obtain ⟨y, h4, h⟩ := exceptBind_ok h
        simp only [pure, Except.pure, Except.ok.injEq, Prod.mk.injEq] at h
        exact absurd h.2.symm hne
      | none =>
        obtain ⟨y, h4, h⟩ := exceptBind_ok h
        simp only [pure, Except.pure, Except.ok.injEq, Prod.mk.injEq] at h
        exact absurd h.2.symm hne
    | switch sw =>
      obtain ⟨ex, cs⟩ := sw
      obtain ⟨cs1, h1, h⟩ := exceptBind_ok h
      simp only [pure, Except.pure, Except.ok.injEq, Prod.mk.injEq] at h
      exact absurd h.2.symm hne
    | whileStmt w =>
      obtain ⟨c, b⟩ := w
      obtain ⟨⟨c1, v1⟩, h1, h⟩ := exceptBind_ok h
      obtain ⟨b1, h2, h⟩ := exceptBind_ok h
      simp only [pure, Except.pure, Except.ok.injEq, Prod.mk.injEq] at h
      exact absurd h.2.symm hne
    | forStmt f4 =>
      obtain ⟨ini, c, it, b⟩ := f4
      cases ini with
      | some inode =>
        obtain ⟨ss, dd⟩ := inode
        obtain ⟨⟨d1, f1⟩, h0, h⟩ := exceptBind_ok h
        obtain ⟨y0, hy0, h⟩ := exceptBind_ok h
        obtain ⟨c1, h2, h⟩ := exceptBind_ok h
        obtain ⟨it1, h3, h⟩ := exceptBind_ok h
        obtain ⟨b1, h4, h⟩ := exceptBind_ok h
        simp only [pure, Except.pure, Except.ok.injEq, Prod.mk.injEq] at h
        exact absurd h.2.symm hne
      | none =>
        obtain ⟨y0, hy0, h⟩ := exceptBind_ok h
        obtain ⟨c1, h2, h⟩ := exceptBind_ok h
        obtain ⟨it1, h3, h⟩ := exceptBind_ok h
        obtain ⟨b1, h4, h⟩ := exceptBind_ok h
        simp only [pure, Except.pure, Except.ok.injEq, Prod.mk.injEq] at h
        exact absurd h.2.symm hne
    | breakStmt =>
      simp only [pure, Except.pure, Except.ok.injEq, Prod.mk.injEq] at h
      exact absurd h.2.symm hne
    | continueStmt =>
      simp only [pure, Except.pure, Except.ok.injEq, Prod.mk.injEq] at h
      exact absurd h.2.symm hne
    | ret kw e =>
      cases e with
      | some n =>
        obtain ⟨⟨n1, v1⟩, h1, h⟩ := exceptBind_ok h
        simp only [pure, Except.pure, Except.ok.injEq, Prod.mk.injEq] at h
        exact absurd h.2.symm hne
      | none =>
        simp only [pure, Except.pure, Except.ok.injEq, Prod.mk.injEq] at h
        exact absurd h.2.symm hne
    | blockStatement bs =>
      obtain ⟨bs1, h1, h⟩ := exceptBind_ok h
      simp only [pure, Except.pure, Except.ok.injEq, Prod.mk.injEq] at h
      exact absurd h.2.symm hne
  · intro F m fact ident sp lit
    rfl

/-- Witness for C3 (amended): the comp_lib clause applied at a concrete
declaration statement with a literal-folding initializer. -/
theorem facts_only_from_declarations_comp_lib_vs_src_witness :
    ∃ d d', (CF.Statement.declaration (F := Int)
        (.variableDecl (.mk ⟨⟨0, 3⟩, ⟨none, ⟨⟨0, 3⟩, .signedInt⟩⟩⟩ ⟨⟨4, 1⟩, "x"⟩ []
          (some (⟨6, 1⟩, .mk ⟨8, 1⟩ (.literal ⟨⟨8, 1⟩, .dec 5⟩)))))) = .declaration d
      ∧ (CF.Statement.declaration (F := Int)
        (.variableDecl (.mk ⟨⟨0, 3⟩, ⟨none, ⟨⟨0, 3⟩, .signedInt⟩⟩⟩ ⟨⟨4, 1⟩, "x"⟩ []
          (some (⟨6, 1⟩, .mk ⟨8, 1⟩ (.literal ⟨⟨8, 1⟩, .dec 5⟩)))))) = .declaration d' :=
  facts_only_from_declarations_comp_lib_vs_src.1 Int intFloatModel none _ _
    (some ("x", .int 5)) rfl (by simp)

/-- C10: lowering any nested block statement produces exactly one
"unimplemented" diagnostic tagged "blocks" carrying the statement's span,
emits no IR statement, and leaves the symbol table untouched. -/
theorem nested_block_lowers_to_unimplemented_diagnostic :
    ∀ (F : Type) (s : Settings) (st : LO.ScopedTable) (span : Span)
      (comments : List String) (stmts : List (LO.LStatementNode F)),
      LO.buildIrFromStatement s (.mk span comments (.blockStatement stmts)) st =
        ({ diags := [.unimplemented span "blocks"], val := none }, st) := by
  intro F s st span comments stmts
  rfl

/-- C7: lowering a declaration whose name is already bound in the innermost
scope yields exactly one "already defined" diagnostic, whose span is the
second identifier's and whose cited original span comes from the first
declaration's table item; the failed declare leaves the symbol table
unmutated and no IR statement is emitted.  End-to-end, `int a; int a;` lowers
to one diagnostic citing the first span, an empty global block, and a table
retaining only the first item. -/
theorem redeclaration_single_diagnostic_cites_original :
    (∀ (F : Type) (s : Settings) (st : LO.ScopedTable) (name : String)
        (identSpan stSpan tspan uspan : Span) (csp : Option Span)
        (uty : UnqualifiedType) (comments : List String)
        (scope : List (String × Nat)) (outer : List (List (String × Nat)))
        (id0 : Nat),
        st.scopes = scope :: outer →
        scope.lookup name = some id0 →
        LO.buildIrFromStatement (F := F) s
          (.mk stSpan comments
            (.declaration ⟨tspan, ⟨csp, ⟨uspan, uty⟩⟩⟩ ⟨identSpan, name⟩ none)) st =
          ({ diags := [.alreadyDefined identSpan name (st.get id0).originalSpan],
             val := none }, st))
    ∧ (∀ (F : Type) (s : Settings) (name : String)
        (s1 s2 span1 span2 t1 t2 u1 u2 : Span) (c1 c2 : Option Span)
        (uty1 uty2 : UnqualifiedType) (cm1 cm2 : List String),
        LO.buildIrFromAst (F := F) s
          ⟨[.mk s1 cm1 (.declaration ⟨t1, ⟨c1, ⟨u1, uty1⟩⟩⟩ ⟨span1, name⟩ none),
            .mk s2 cm2 (.declaration ⟨t2, ⟨c2, ⟨u2, uty2⟩⟩⟩ ⟨span2, name⟩ none)]⟩ =
          { diags := [.alreadyDefined span2 name span1],
            val := some { global := ⟨[]⟩,
                          table := [⟨LO.fromAstType uty1, c1.isSome, span1, false⟩] } }) := by
  constructor
  · intro F s st name identSpan stSpan tspan uspan csp uty comments scope outer id0
      hscopes hfound
    simp [LO.buildIrFromStatement, LO.declarationFn, LO.ScopedTable.declare,
      hscopes, hfound, LO.AggregateResult.newOk, LO.AggregateResult.newErr,
      LO.AggregateResult.zip, LO.AggregateResult.andThen, LO.AggregateResult.map,
      LO.LStatementNode.span, LO.LStatementNode.comments, LO.LStatementNode.data]
  · intro F s name s1 s2 span1 span2 t1 t2 u1 u2 c1 c2 uty1 uty2 cm1 cm2
    simp [LO.buildIrFromAst, LO.buildIrStmts, LO.buildIrFromStatement,
      LO.declarationFn, LO.ScopedTable.declare, LO.ScopedTable.get,
      LO.AggregateResult.newOk, LO.AggregateResult.newErr, LO.AggregateResult.zip,
      LO.AggregateResult.andThen, LO.AggregateResult.map, LO.AggregateResult.addTo,
      LO.LStatementNode.span, LO.LStatementNode.comments, LO.LStatementNode.data,
      List.lookup]

/-- Witness for C7: the second-declaration clause applied at a concrete
one-scope table already containing `"a"`. -/
theorem redeclaration_single_diagnostic_cites_original_witness :
    LO.buildIrFromStatement (F := Int) ⟨.x86_64⟩
      (.mk ⟨10, 6⟩ [] (.declaration ⟨⟨10, 3⟩, ⟨none, ⟨⟨10, 3⟩, .signedInt⟩⟩⟩
        ⟨⟨14, 1⟩, "a"⟩ none))
      { items := [⟨LO.fromAstType .signedInt, false, ⟨4, 1⟩, false⟩],
        scopes := [[("a", 0)]] } =
      ({ diags := [.alreadyDefined ⟨14, 1⟩ "a"
          (LO.ScopedTable.get { items := [⟨LO.fromAstType .signedInt, false, ⟨4, 1⟩, false⟩],
                                scopes := [[("a", 0)]] } 0).originalSpan],
         val := none },
       { items := [⟨LO.fromAstType .signedInt, false, ⟨4, 1⟩, false⟩],
         scopes := [[("a", 0)]] }) :=
  redeclaration_single_diagnostic_cites_original.1 Int ⟨.x86_64⟩ _ "a"
    ⟨14, 1⟩ ⟨10, 6⟩ ⟨10, 3⟩ ⟨10, 3⟩ none .signedInt [] [("a", 0)] [] 0 rfl rfl

/-- C2 counterexample: lowering `printf((long double) 0)` inserts a cast — the
emitted printf argument has type `double` and wraps the lowered
`long double` argument in a cast node. The argument was already at (indeed
above) its promoted type and `double` is not the widest floating type of the
catalog, refuting both the no-redundant-cast clause and the
widest-floating-type clause of the claim. -/
theorem printf_long_double_arg_cast_down_to_double :
    LO.buildIrFromStatement (F := Int) ⟨.x86_64⟩
      (.mk ⟨0, 22⟩ [] (.printf (.mk ⟨7, 14⟩
        (.castE ⟨⟨8, 11⟩, ⟨none, ⟨⟨8, 11⟩, .longDouble⟩⟩⟩ (.mk ⟨20, 1⟩ (.intLit 0))))))
      { items := [], scopes := [[]] } =
      ({ diags := [],
         val := some (some ⟨⟨0, 22⟩,
           .printf (.mk ⟨7, 14⟩ (.scalar (.arithmetic .double))
             (.cast (.mk ⟨7, 14⟩ (.scalar (.arithmetic .longDouble))
               (.cast (.mk ⟨20, 1⟩ (.scalar (.arithmetic .signedInt)) (.constant 0)))))),
           []⟩) },
       { items := [], scopes := [[]] })
    ∧ (LO.printfPromote (F := Int)
        (.mk ⟨7, 14⟩ (.scalar (.arithmetic .longDouble))
          (.cast (.mk ⟨20, 1⟩ (.scalar (.arithmetic .signedInt)) (.constant 0))))).expr =
      .cast (.mk ⟨7, 14⟩ (.scalar (.arithmetic .longDouble))
        (.cast (.mk ⟨20, 1⟩ (.scalar (.arithmetic .signedInt)) (.constant 0))))
    ∧ (LO.printfPromote (F := Int)
        (.mk ⟨7, 14⟩ (.scalar (.arithmetic .longDouble))
          (.cast (.mk ⟨20, 1⟩ (.scalar (.arithmetic .signedInt)) (.constant 0))))).ty =
      .scalar (.arithmetic .double)
    ∧ Arithmetic.double ≠ Arithmetic.longDouble :=
  ⟨rfl, rfl, rfl, by decide⟩

/-- C2 (amended): printf-style variadic argument promotion as the code
performs it — an integral argument already at its promoted type gets no cast;
an integral argument below it gets a cast to the promoted type; a `double`
argument gets no cast; every other floating argument (`float`, and also
`long double`) gets a cast to `double`; and the lowering engine applies
exactly this promotion to the lowered argument of every printf statement. -/
theorem printf_variadic_promotion :
    (∀ (F : Type) (e : LO.ExprNode F) (a : Arithmetic),
        e.ty = .scalar (.arithmetic a) → a.isIntegral = true → LO.promote a = a →
        LO.printfPromote e = e)
    ∧ (∀ (F : Type) (e : LO.ExprNode F) (a : Arithmetic),
        e.ty = .scalar (.arithmetic a) → a.isIntegral = true → LO.promote a ≠ a →
        LO.printfPromote e =
          .mk e.span (.scalar (.arithmetic (LO.promote a))) (.cast e))
    ∧ (∀ (F : Type) (e : LO.ExprNode F),
        e.ty = .scalar (.arithmetic .double) → LO.printfPromote e = e)
    ∧ (∀ (F : Type) (e : LO.ExprNode F) (a : Arithmetic),
        e.ty = .scalar (.arithmetic a) → a.isIntegral = false → a ≠ .double →
        LO.printfPromote e = .mk e.span (.scalar (.arithmetic .double)) (.cast e))
    ∧ (∀ (F : Type) (s : Settings) (st : LO.ScopedTable) (span : Span)
        (comments : List String) (e : LO.LExpressionNode F),
        LO.buildIrFromStatement s (.mk span comments (.printf e)) st =
          ((LO.buildIrExpr s st e).map fun ie =>
            some ⟨span, .printf (LO.printfPromote ie), comments⟩, st)) := by
  refine ⟨?_, ?_, ?_, ?_, ?_⟩
  · rintro F ⟨sp, ty, ex⟩ a hty hint hpr
    simp only [LO.ExprNode.ty] at hty
    subst hty
    simp [LO.printfPromote, LO.maybeCast, hint, hpr, LO.ctypeBeq, LO.scalarBeq,
      LO.ExprNode.ty]
  · rintro F ⟨sp, ty, ex⟩ a hty hint hpr
    simp only [LO.ExprNode.ty] at hty
    subst hty
    simp [LO.printfPromote, LO.maybeCast, hint, LO.ctypeBeq, LO.scalarBeq,
      LO.ExprNode.ty, LO.ExprNode.span, beq_iff_eq, hpr]
  · rintro F ⟨sp, ty, ex⟩ hty
    simp only [LO.ExprNode.ty] at hty
    subst hty
    simp [LO.printfPromote, LO.maybeCast, LO.ctypeBeq, LO.scalarBeq,
      LO.ExprNode.ty, Arithmetic.isIntegral]
  · rintro F ⟨sp, ty, ex⟩ a hty hint hne
    simp only [LO.ExprNode.ty] at hty
    subst hty
    simp [LO.printfPromote, LO.maybeCast, hint, LO.ctypeBeq, LO.scalarBeq,
      LO.ExprNode.ty, LO.ExprNode.span, beq_iff_eq, hne]
    exact fun hfalse => hne hfalse.symm
  · intro F s st span comments e
    simp only [LO.buildIrFromStatement, LO.LStatementNode.span,
      LO.LStatementNode.comments, LO.LStatementNode.data]
    rcases hv : LO.buildIrExpr s st e with ⟨diags, val⟩
    cases val <;> simp [LO.AggregateResult.map, Option.map]

/-- Witness for C2 (amended): a `char` argument is cast to `signed int`, a
`double` argument is left alone. -/
theorem printf_variadic_promotion_witness :
    LO.printfPromote (F := Int)
      (.mk ⟨0, 1⟩ (.scalar (.arithmetic .char)) (.constant 7)) =
      .mk ⟨0, 1⟩ (.scalar (.arithmetic .signedInt))
        (.cast (.mk ⟨0, 1⟩ (.scalar (.arithmetic .char)) (.constant 7)))
    ∧ LO.printfPromote (F := Int)
      (.mk ⟨0, 1⟩ (.scalar (.arithmetic .double)) (.floatConstant 0)) =
      .mk ⟨0, 1⟩ (.scalar (.arithmetic .double)) (.floatConstant 0) :=
  ⟨printf_variadic_promotion.2.1 Int
      (.mk ⟨0, 1⟩ (.scalar (.arithmetic .char)) (.constant 7)) .char rfl rfl
      (by decide),
   printf_variadic_promotion.2.2.1 Int
      (.mk ⟨0, 1⟩ (.scalar (.arithmetic .double)) (.floatConstant 0)) rfl⟩

/-- A successful association-list lookup means membership. -/
theorem lookup_mem {α β : Type} [BEq α] [LawfulBEq α] {l : List (α × β)} {a : α}
    {b : β} (h : l.lookup a = some b) : (a, b) ∈ l := by
  induction l with
  | nil => simp [List.lookup] at h
  | cons kv rest ih =>
    obtain ⟨k, v⟩ := kv
    rw [List.lookup] at h
    by_cases hk : a == k
    · rw [hk] at h
      simp only [Option.some.injEq] at h
      subst h
      have : a = k := by simpa using hk
      subst this
      exact List.mem_cons_self _ _
    · rw [Bool.not_eq_true] at hk
      rw [hk] at h
      exact List.mem_cons_of_mem _ (ih h)

/-- A successful scope-chain lookup returns an id bounded by any bound that
holds for every id in the chain. -/
theorem lookupChain_lt {name : String} {scopes : List (List (String × Nat))}
    {id N : Nat}
    (hwf : ∀ scope ∈ scopes, ∀ p ∈ scope, p.2 < N)
    (h : LO.lookupChain name scopes = some id) : id < N := by
  induction scopes with
  | nil => simp [LO.lookupChain] at h
  | cons scope outer ih =>
    rw [LO.lookupChain] at h
    cases hl : scope.lookup name with
    | some id0 =>
      rw [hl] at h
      simp only [Option.some.injEq] at h
      subst h
      exact hwf scope (List.mem_cons_self _ _) _ (lookup_mem hl)
    | none =>
      rw [hl] at h
      exact ih (fun sc hsc => hwf sc (List.mem_cons_of_mem _ hsc)) h

/-- Every symbol id referenced by a lowered expression is an index into the
arena of the table the expression was lowered against (helper for C6). -/
theorem buildIrExpr_ids_lt {F : Type} (s : Settings) (st : LO.ScopedTable)
    (hwf : LO.TableWF st) :
    ∀ (e : LO.LExpressionNode F) (ie : LO.ExprNode F),
      (LO.buildIrExpr s st e).val = some ie →
      ∀ id ∈ LO.irExprIds ie, id < st.items.length
  | .mk span (.ident i), ie, h, id, hid => by
    simp only [LO.buildIrExpr] at h
    cases hl : st.lookupName i.data with
    | some id0 =>
      rw [hl] at h
      simp only [LO.AggregateResult.newOk, Option.some.injEq] at h
      subst h
      simp only [LO.irExprIds, List.mem_singleton] at hid
      subst hid
      exact lookupChain_lt hwf hl
    | none =>
      rw [hl] at h
      simp [LO.AggregateResult.newErr] at h
  | .mk span (.intLit n), ie, h, id, hid => by
    simp only [LO.buildIrExpr] at h
    cases hf : findFirstFit n LO.literalCandidates s with
    | some a =>
      rw [hf] at h
      simp only [LO.AggregateResult.newOk, Option.some.injEq] at h
      subst h
      simp [LO.irExprIds] at hid
    | none =>
      rw [hf] at h
      simp [LO.AggregateResult.newErr] at h
  | .mk span (.floatLit f), ie, h, id, hid => by
    simp only [LO.buildIrExpr] at h
    simp only [LO.AggregateResult.newOk, Option.some.injEq] at h
    subst h
    simp [LO.irExprIds] at hid
  | .mk span (.castE (.mk a1 (.mk a2 (.mk a3 uty))) inner), ie, h, id, hid => by
    simp only [LO.buildIrExpr] at h
    simp only [LO.AggregateResult.map] at h
    cases hv : (LO.buildIrExpr s st inner).val with
    | some ie0 =>
      rw [hv] at h
      simp only [Option.map_some', Option.some.injEq] at h
      subst h
      simp only [LO.irExprIds] at hid
      exact buildIrExpr_ids_lt s st hwf inner ie0 hv id hid
    | none =>
      rw [hv] at h
      simp at h

/-- A successful `declare` hands out the next arena index as the fresh id
(helper for C6). -/
theorem declare_ok_fresh {st st' : LO.ScopedTable} {name : String}
    {item : LO.Item} {id : Nat}
    (h : st.declare name item = (st', .ok id)) : id = st.items.length := by
  rw [LO.ScopedTable.declare.eq_def] at h
  split at h
  · simp at h
  · split at h
    · simp at h
    · simp only [Prod.mk.injEq, Except.ok.injEq] at h
      exact h.2.symm

/-- `maybe_cast` does not change the referenced symbol ids (helper for C6). -/
theorem irExprIds_maybeCast {F : Type} (ie : LO.ExprNode F) (t : LO.CType) :
    LO.irExprIds (LO.maybeCast ie t) = LO.irExprIds ie := by
  rw [LO.maybeCast]
  cases LO.ctypeBeq t ie.ty with
  | false =>
    simp only [Bool.false_eq_true, if_false]
    cases ie
    rfl
  | true => simp

/-- C6: the initializer of a declaration is lowered against the
pre-declaration table, so when a declaration statement emits its synthetic
initializing assignment, the assignment's target id is the freshly allocated
id (the next arena index) while every id referenced inside the lowered
initializer is strictly below it — an identifier occurrence in its own
initializer can never resolve to the id being declared. Concretely,
`T x = x;` against an empty table reports the initializer's `x` as
undeclared (while the declaration itself still enters the table). -/
theorem initializer_never_resolves_to_declared_id :
    (∀ (F : Type) (s : Settings) (st : LO.ScopedTable)
        (span tspan uspan identSpan opSpan : Span) (csp : Option Span)
        (uty : UnqualifiedType) (comments : List String) (name : String)
        (init : LO.LExpressionNode F) (sn : LO.StmtNode F),
        LO.TableWF st →
        (LO.buildIrFromStatement s
          (.mk span comments (.declaration ⟨tspan, ⟨csp, ⟨uspan, uty⟩⟩⟩
            ⟨identSpan, name⟩ (some (opSpan, init)))) st).1.val = some (some sn) →
        ∃ (dst : LO.LvalueExprNode) (rhs : LO.ExprNode F),
          sn.stmt = .expr (.mk span dst.ty (.assign dst rhs)) ∧
          dst.expr = .ident st.items.length ∧
          ∀ id ∈ LO.irExprIds rhs, id < st.items.length)
    ∧ (∀ (F : Type) (s : Settings)
        (span tspan uspan identSpan opSpan ispan uspan2 : Span) (csp : Option Span)
        (uty : UnqualifiedType) (comments : List String) (name : String),
        LO.buildIrFromStatement (F := F) s
          (.mk span comments (.declaration ⟨tspan, ⟨csp, ⟨uspan, uty⟩⟩⟩
            ⟨identSpan, name⟩ (some (opSpan, .mk ispan (.ident ⟨uspan2, name⟩)))))
          { items := [], scopes := [[]] } =
          ({ diags := [.undeclaredIdent ispan name], val := none },
           { items := [⟨LO.fromAstType uty, csp.isSome, identSpan, true⟩],
             scopes := [[(name, 0)]] })) := by
  constructor
  · intro F s st span tspan uspan identSpan opSpan csp uty comments name init sn
      hwf h
    simp only [LO.buildIrFromStatement, LO.LStatementNode.data,
      LO.LStatementNode.span, LO.LStatementNode.comments, Option.isSome_some,
      LO.declarationFn] at h
    rcases hdecl : st.declare name ⟨LO.fromAstType uty, csp.isSome, identSpan, true⟩
      with ⟨st1, r⟩
    rw [hdecl] at h
    cases r with
    | ok id =>
      have hid : id = st.items.length := declare_ok_fresh hdecl
      cases hie : (LO.buildIrExpr s st init).val with
      | some ie =>
        simp only [LO.AggregateResult.map, LO.AggregateResult.zip,
          LO.AggregateResult.andThen, LO.AggregateResult.newOk, hie,
          Option.map_some', LO.assign, LO.AggregateResult.newErr,
          Option.some.injEq, if_false, Bool.false_eq_true] at h
        refine ⟨{ span := identSpan, isConst := false, ty := LO.fromAstType uty,
                  expr := .ident id }, LO.maybeCast ie (LO.fromAstType uty),
          ?_, ?_, ?_⟩
        · rw [← h]
        · simp [hid]
        · rw [irExprIds_maybeCast]
          exact buildIrExpr_ids_lt s st hwf init ie hie
      | none =>
        simp only [LO.AggregateResult.map, LO.AggregateResult.zip,
          LO.AggregateResult.andThen, LO.AggregateResult.newOk, hie,
          Option.map_none'] at h
        simp at h
    | error id =>
      simp only [LO.AggregateResult.map, LO.AggregateResult.zip,
        LO.AggregateResult.andThen, LO.AggregateResult.newErr] at h
      simp at h
  · intro F s span tspan uspan identSpan opSpan ispan uspan2 csp uty comments name
    simp [LO.buildIrFromStatement, LO.declarationFn, LO.ScopedTable.declare,
      LO.buildIrExpr, LO.ScopedTable.lookupName, LO.lookupChain, List.lookup,
      LO.AggregateResult.newOk, LO.AggregateResult.newErr, LO.AggregateResult.zip,
      LO.AggregateResult.andThen, LO.AggregateResult.map,
      LO.LStatementNode.span, LO.LStatementNode.comments, LO.LStatementNode.data]

/-- Witness for C6: `int b = a;` lowered in an inner scope whose outer scope
declares `a` (id 0, table of one item): the emitted assignment targets the
fresh id 1 and the initializer's only referenced id is 0. -/
theorem initializer_never_resolves_to_declared_id_witness :
    ∃ (dst : LO.LvalueExprNode) (rhs : LO.ExprNode Int),
      (⟨⟨10, 9⟩, .expr (.mk ⟨10, 9⟩ (.scalar (.arithmetic .signedInt))
          (.assign { span := ⟨14, 1⟩, isConst := false,
                     ty := .scalar (.arithmetic .signedInt), expr := .ident 1 }
            (.mk ⟨18, 1⟩ (.scalar (.arithmetic .signedInt))
              (.lvalue { span := ⟨18, 1⟩, isConst := false,
                         ty := .scalar (.arithmetic .signedInt),
                         expr := .ident 0 })))), []⟩ : LO.StmtNode Int).stmt =
        .expr (.mk ⟨10, 9⟩ dst.ty (.assign dst rhs)) ∧
      dst.expr = .ident 1 ∧
      ∀ id ∈ LO.irExprIds rhs, id < 1 :=
  initializer_never_resolves_to_declared_id.1 Int ⟨.x86_64⟩
    { items := [⟨.scalar (.arithmetic .signedInt), false, ⟨0, 1⟩, true⟩],
      scopes := [[], [("a", 0)]] }
    ⟨10, 9⟩ ⟨10, 3⟩ ⟨10, 3⟩ ⟨14, 1⟩ ⟨16, 1⟩ none .signedInt [] "b"
    (.mk ⟨18, 1⟩ (.ident ⟨⟨18, 1⟩, "a"⟩)) _
    (by intro scope hscope p hp
        simp only [List.mem_cons, List.mem_singleton, List.not_mem_nil] at hscope
        rcases hscope with rfl | rfl | hfalse
        · simp at hp
        · simp only [List.mem_singleton] at hp
          subst hp
          decide
        · exact absurd hfalse (by simp))
    rfl

/-- Reduction of a successful `Except` bind (simp helper). -/
theorem exceptBind_ok_eq {α β : Type} (a : α) (f : α → Except Unit β) :
    ((Except.ok a : Except Unit α) >>= f) = f a := rfl

/-- `pure` into `Except` is `ok` (simp helper). -/
theorem exceptPure_eq {α : Type} (a : α) :
    (pure a : Except Unit α) = Except.ok a := rfl

/-- The write-back literal of a value folds back to that value. -/
theorem foldLiteral_litOfValue {F : Type} (v : CF.Value F) :
    CF.foldLiteral (CF.litOfValue v) = some v := by
  cases v <;> rfl

/-- `replaceWithLiteral` on a destructured node (simp helper). -/
theorem replaceWithLiteral_mk {F : Type} (s : Span) (d : CF.Expression F)
    (v : CF.Value F) :
    CF.replaceWithLiteral (.mk s d) v = .mk s (.literal ⟨s, CF.litOfValue v⟩) := rfl

/-- `fold_expr` on a literal expression: unchanged, value from `fold_literal`. -/
theorem foldExpr_literal {F : Type} (m : FloatModel F) (fact : CF.Fact F)
    (lit : CF.LiteralNode F) :
    CF.foldExpr m fact (.literal lit) = .ok (.literal lit, CF.foldLiteral lit.data) := rfl

/-- Idempotence of `fold_expr` (helper for C9): refolding the expression a
fold returned reproduces it with the same folded value; moreover the rewrite
never turns a non-literal expression into a literal at the top (the whole
node is only replaced by its caller). -/
theorem foldExpr_idem {F : Type} (m : FloatModel F) (fact : CF.Fact F) :
    ∀ (e e' : CF.Expression F) (v : Option (CF.Value F)),
      CF.foldExpr m fact e = .ok (e', v) →
      CF.foldExpr m fact e' = .ok (e', v) ∧
        ∀ lit, e' = .literal lit → ∃ lit2, e = .literal lit2 := by
  intro e
  refine CF.foldExpr.induct m fact
    (fun e => ∀ (e' : CF.Expression F) (v : Option (CF.Value F)),
      CF.foldExpr m fact e = .ok (e', v) →
      CF.foldExpr m fact e' = .ok (e', v) ∧
        ∀ lit, e' = .literal lit → ∃ lit2, e = .literal lit2)
    (fun l => ∀ l', CF.foldArgs m fact l = .ok l' →
      CF.foldArgs m fact l' = .ok l')
    ?_ ?_ ?_ ?_ ?_ ?_ ?_ ?_ ?_ ?_ e
  -- assignment
  · intro lhs opSpan rspan rdata ih e' v h
    simp only [CF.foldExpr] at h
    obtain ⟨⟨rhsD, vr⟩, h1, h⟩ := exceptBind_ok h
    have ih1 := ih rhsD vr h1
    cases vr with
    | none =>
      simp only [exceptPure_eq, Except.ok.injEq, Prod.mk.injEq] at h
      obtain ⟨he, hv⟩ := h
      subst he
      subst hv
      refine ⟨?_, ?_⟩
      · simp only [CF.foldExpr, ih1.1, exceptBind_ok_eq, exceptPure_eq, CF.ExpressionNode.span]
      · intro lit heq
        simp at heq
    | some folded =>
      simp only [exceptPure_eq, Except.ok.injEq, Prod.mk.injEq] at h
      obtain ⟨he, hv⟩ := h
      subst he
      subst hv
      refine ⟨?_, ?_⟩
      · simp only [replaceWithLiteral_mk, CF.foldExpr, foldExpr_literal,
          foldLiteral_litOfValue, exceptBind_ok_eq, exceptPure_eq, CF.ExpressionNode.span]
      · intro lit heq
        simp at heq
  -- binary
  · intro lspan ldata op rspan rdata ihl ihr e' v h
    simp only [CF.foldExpr] at h
    obtain ⟨⟨lhsD, v1⟩, h1, h⟩ := exceptBind_ok h
    cases v1 with
    | none =>
      simp only [exceptPure_eq, Except.ok.injEq, Prod.mk.injEq] at h
      obtain ⟨he, hv⟩ := h
      subst he
      subst hv
      refine ⟨?_, ?_⟩
      · simp only [CF.foldExpr, (ihl lhsD none h1).1, exceptBind_ok_eq, exceptPure_eq, CF.ExpressionNode.span]
      · intro lit heq
        simp at heq
    | some f1 =>
      obtain ⟨⟨rhsD, v2⟩, h2, h⟩ := exceptBind_ok h
      cases v2 with
      | none =>
        simp only [exceptPure_eq, Except.ok.injEq, Prod.mk.injEq] at h
        obtain ⟨he, hv⟩ := h
        subst he
        subst hv
        refine ⟨?_, ?_⟩
        · simp only [CF.foldExpr, (ihl lhsD (some f1) h1).1,
            (ihr rhsD none h2).1, exceptBind_ok_eq, exceptPure_eq, CF.ExpressionNode.span]
        · intro lit heq
          simp at heq
      | some f2 =>
        obtain ⟨r, hr, h⟩ := exceptBind_ok h
        cases r with
        | some vres =>
          simp only [exceptPure_eq, Except.ok.injEq, Prod.mk.injEq] at h
          obtain ⟨he, hv⟩ := h
          subst he
          subst hv
          refine ⟨?_, ?_⟩
          · simp only [CF.foldExpr, (ihl lhsD (some f1) h1).1,
              (ihr rhsD (some f2) h2).1, exceptBind_ok_eq, hr, exceptPure_eq,
              CF.ExpressionNode.span]
          · intro lit heq
            simp at heq
        | none =>
          simp only [exceptPure_eq, Except.ok.injEq, Prod.mk.injEq] at h
          obtain ⟨he, hv⟩ := h
          subst he
          subst hv
          refine ⟨?_, ?_⟩
          · simp only [replaceWithLiteral_mk, CF.foldExpr, foldExpr_literal,
              foldLiteral_litOfValue, exceptBind_ok_eq, hr, exceptPure_eq,
              CF.ExpressionNode.span]
          · intro lit heq
            simp at heq
  -- arraySubscript
  · intro lspan ldata rspan rdata ihl ihr e' v h
    simp only [CF.foldExpr] at h
    obtain ⟨⟨lhsD, v1⟩, h1, h⟩ := exceptBind_ok h
    obtain ⟨⟨rhsD, v2⟩, h2, h⟩ := exceptBind_ok h
    simp only [exceptPure_eq, Except.ok.injEq, Prod.mk.injEq] at h
    obtain ⟨he, hv⟩ := h
    subst he
    subst hv
    refine ⟨?_, ?_⟩
    · cases v1 with
      | none =>
        cases v2 with
        | none =>
          simp only [CF.foldExpr, (ihl lhsD none h1).1, (ihr rhsD none h2).1,
            exceptBind_ok_eq, exceptPure_eq, CF.ExpressionNode.span]
        | some f2 =>
          simp only [CF.foldExpr, (ihl lhsD none h1).1, replaceWithLiteral_mk,
            foldExpr_literal, foldLiteral_litOfValue, exceptBind_ok_eq, exceptPure_eq, CF.ExpressionNode.span]
      | some f1 =>
        cases v2 with
        | none =>
          simp only [CF.foldExpr, (ihr rhsD none h2).1, replaceWithLiteral_mk,
            foldExpr_literal, foldLiteral_litOfValue, exceptBind_ok_eq, exceptPure_eq, CF.ExpressionNode.span]
        | some f2 =>
          simp only [CF.foldExpr, replaceWithLiteral_mk, foldExpr_literal,
            foldLiteral_litOfValue, exceptBind_ok_eq, exceptPure_eq, CF.ExpressionNode.span]
    · intro lit heq
      simp at heq
  -- unary
  · intro op ispan idata ih e' v h
    simp only [CF.foldExpr] at h
    obtain ⟨⟨innerD, vi⟩, h1, h⟩ := exceptBind_ok h
    cases vi with
    | none =>
      simp only [exceptPure_eq, Except.ok.injEq, Prod.mk.injEq] at h
      obtain ⟨he, hv⟩ := h
      subst he
      subst hv
      refine ⟨?_, ?_⟩
      · simp only [CF.foldExpr, (ih innerD none h1).1, exceptBind_ok_eq, exceptPure_eq, CF.ExpressionNode.span]
      · intro lit heq
        simp at heq
    | some folded =>
      cases hop : CF.isLvalueOp op.data with
      | true =>
        rw [hop] at h
        simp only [if_true, exceptPure_eq, Except.ok.injEq, Prod.mk.injEq] at h
        obtain ⟨he, hv⟩ := h
        subst he
        subst hv
        refine ⟨?_, ?_⟩
        · simp only [CF.foldExpr, (ih innerD (some folded) h1).1,
            exceptBind_ok_eq, hop, if_true, exceptPure_eq, CF.ExpressionNode.span]
        · intro lit heq
          simp at heq
      | false =>
        rw [hop] at h
        simp only [Bool.false_eq_true, if_false] at h
        cases hev : CF.evalUnaryOp m op.data folded with
        | some vres =>
          rw [hev] at h
          simp only [exceptPure_eq, Except.ok.injEq, Prod.mk.injEq] at h
          obtain ⟨he, hv⟩ := h
          subst he
          subst hv
          refine ⟨?_, ?_⟩
          · simp only [CF.foldExpr, (ih innerD (some folded) h1).1,
              exceptBind_ok_eq, hop, Bool.false_eq_true, if_false, hev,
              exceptPure_eq, CF.ExpressionNode.span]
          · intro lit heq
            simp at heq
        | none =>
          rw [hev] at h
          simp only [exceptPure_eq, Except.ok.injEq, Prod.mk.injEq] at h
          obtain ⟨he, hv⟩ := h
          subst he
          subst hv
          refine ⟨?_, ?_⟩
          · simp only [replaceWithLiteral_mk, CF.foldExpr, foldExpr_literal,
              foldLiteral_litOfValue, exceptBind_ok_eq, hop, Bool.false_eq_true,
              if_false, hev, exceptPure_eq, CF.ExpressionNode.span]
          · intro lit heq
            simp at heq
  -- cast
  · intro ty ispan idata ih e' v h
    simp only [CF.foldExpr] at h
    obtain ⟨⟨innerD, vi⟩, h1, h⟩ := exceptBind_ok h
    cases vi with
    | none =>
      simp only [exceptPure_eq, Except.ok.injEq, Prod.mk.injEq] at h
      obtain ⟨he, hv⟩ := h
      subst he
      subst hv
      refine ⟨?_, ?_⟩
      · simp only [CF.foldExpr, (ih innerD none h1).1, exceptBind_ok_eq, exceptPure_eq, CF.ExpressionNode.span]
      · intro lit heq
        simp at heq
    | some folded =>
      simp only [exceptPure_eq, Except.ok.injEq, Prod.mk.injEq] at h
      obtain ⟨he, hv⟩ := h
      subst he
      subst hv
      refine ⟨?_, ?_⟩
      · simp only [replaceWithLiteral_mk, CF.foldExpr, foldExpr_literal,
          foldLiteral_litOfValue, exceptBind_ok_eq, exceptPure_eq, CF.ExpressionNode.span]
      · intro lit heq
        simp at heq
  -- functionCall
  · intro fid args ihargs e' v h
    simp only [CF.foldExpr] at h
    obtain ⟨args', h1, h⟩ := exceptBind_ok h
    simp only [exceptPure_eq, Except.ok.injEq, Prod.mk.injEq] at h
    obtain ⟨he, hv⟩ := h
    subst he
    subst hv
    refine ⟨?_, ?_⟩
    · simp only [CF.foldExpr, ihargs args' h1, exceptBind_ok_eq, exceptPure_eq, CF.ExpressionNode.span]
    · intro lit heq
      simp at heq
  -- ident
  · intro i e' v h
    simp only [CF.foldExpr, exceptPure_eq, Except.ok.injEq, Prod.mk.injEq] at h
    obtain ⟨he, hv⟩ := h
    subst he
    subst hv
    refine ⟨rfl, ?_⟩
    intro lit heq
    simp at heq
  -- literal
  · intro lit e' v h
    simp only [CF.foldExpr, exceptPure_eq, Except.ok.injEq, Prod.mk.injEq] at h
    obtain ⟨he, hv⟩ := h
    subst he
    subst hv
    exact ⟨rfl, fun lit2 _ => ⟨lit, rfl⟩⟩
  -- args nil
  · intro l' h
    simp only [CF.foldArgs, exceptPure_eq, Except.ok.injEq] at h
    subst h
    rfl
  -- args cons
  · intro aspan adata rest ihe ihrest l' h
    simp only [CF.foldArgs] at h
    obtain ⟨⟨argD, va⟩, h1, h⟩ := exceptBind_ok h
    obtain ⟨rest', h2, h⟩ := exceptBind_ok h
    simp only [exceptPure_eq, Except.ok.injEq] at h
    subst h
    cases va with
    | none =>
      simp only [CF.foldArgs, (ihe argD none h1).1, ihrest rest' h2,
        exceptBind_ok_eq, exceptPure_eq, CF.ExpressionNode.span]
    | some folded =>
      simp only [replaceWithLiteral_mk, CF.foldArgs, foldExpr_literal,
        foldLiteral_litOfValue, ihrest rest' h2, exceptBind_ok_eq, exceptPure_eq, CF.ExpressionNode.span]

/-- An expression is a literal exactly when `isLiteralExpr` says so. -/
theorem isLiteralExpr_iff {F : Type} (d : CF.Expression F) :
    CF.isLiteralExpr d = true ↔ ∃ lit, d = .literal lit := by
  cases d <;> simp [CF.isLiteralExpr]

/-- `fold_expr_node` on a literal node short-circuits. -/
theorem foldExprNode_lit {F : Type} (m : FloatModel F) (fact : CF.Fact F)
    (s : Span) (lit : CF.LiteralNode F) :
    CF.foldExprNode m fact (.mk s (.literal lit)) =
      .ok (.mk s (.literal lit), CF.foldLiteral lit.data) := rfl

/-- `fold_expr_node` on a non-literal node folds the expression and replaces
the node when a value came out. -/
theorem foldExprNode_not_lit {F : Type} (m : FloatModel F) (fact : CF.Fact F)
    (s : Span) (d : CF.Expression F) (hd : CF.isLiteralExpr d = false) :
    CF.foldExprNode m fact (.mk s d) =
      (do
        let (d', v) ← CF.foldExpr m fact d
        match v with
        | some folded => pure (CF.replaceWithLiteral (.mk s d') folded, some folded)
        | none => pure (.mk s d', none)) := by
  cases d <;> first | rfl | simp [CF.isLiteralExpr] at hd

/-- Idempotence of `fold_expr_node` (helper for C9). -/
theorem foldExprNode_idem {F : Type} (m : FloatModel F) (fact : CF.Fact F)
    (n n' : CF.ExpressionNode F) (v : Option (CF.Value F))
    (h : CF.foldExprNode m fact n = .ok (n', v)) :
    CF.foldExprNode m fact n' = .ok (n', v) := by
  obtain ⟨s, d⟩ := n
  cases hd : CF.isLiteralExpr d with
  | true =>
    obtain ⟨lit, rfl⟩ := (isLiteralExpr_iff d).mp hd
    rw [foldExprNode_lit] at h
    simp only [Except.ok.injEq, Prod.mk.injEq] at h
    obtain ⟨he, hv⟩ := h
    subst he
    subst hv
    exact foldExprNode_lit m fact s lit
  | false =>
    rw [foldExprNode_not_lit m fact s d hd] at h
    obtain ⟨⟨d', v0⟩, h1, h⟩ := exceptBind_ok h
    have key := foldExpr_idem m fact d d' v0 h1
    cases v0 with
    | some folded =>
      simp only [exceptPure_eq, Except.ok.injEq, Prod.mk.injEq] at h
      obtain ⟨he, hv⟩ := h
      subst he
      subst hv
      rw [replaceWithLiteral_mk, foldExprNode_lit]
      simp [foldLiteral_litOfValue]
    | none =>
      simp only [exceptPure_eq, Except.ok.injEq, Prod.mk.injEq] at h
      obtain ⟨he, hv⟩ := h
      subst he
      subst hv
      have hd' : CF.isLiteralExpr d' = false := by
        cases hd2 : CF.isLiteralExpr d' with
        | false => rfl
        | true =>
          obtain ⟨lit, hlit⟩ := (isLiteralExpr_iff d').mp hd2
          obtain ⟨lit2, hlit2⟩ := key.2 lit hlit
          rw [hlit2] at hd
          simp [CF.isLiteralExpr] at hd
      rw [foldExprNode_not_lit m fact s d' hd', key.1]
      rfl

/-- Idempotence of the optional-node fold (helper for C9). -/
theorem foldOptExprNode_idem {F : Type} (m : FloatModel F) (fact : CF.Fact F)
    (o o' : Option (CF.ExpressionNode F))
    (h : CF.foldOptExprNode m fact o = .ok o') :
    CF.foldOptExprNode m fact o' = .ok o' := by
  cases o with
  | none =>
    simp only [CF.foldOptExprNode, exceptPure_eq, Except.ok.injEq] at h
    subst h
    rfl
  | some n =>
    simp only [CF.foldOptExprNode] at h
    obtain ⟨⟨n', v⟩, h1, h⟩ := exceptBind_ok h
    simp only [exceptPure_eq, Except.ok.injEq] at h
    subst h
    simp only [CF.foldOptExprNode, foldExprNode_idem m fact n n' v h1,
      exceptBind_ok_eq, exceptPure_eq]

/-- Idempotence of the array-part loop of `fold_declaration` (helper for C9). -/
theorem foldArrayParts_idem {F : Type} (m : FloatModel F) (fact : CF.Fact F) :
    ∀ (l l' : List (CF.ArrayDeclarationNode F)),
      CF.foldArrayParts m fact l = .ok l' →
      CF.foldArrayParts m fact l' = .ok l' := by
  intro l
  induction l with
  | nil =>
    intro l' h
    simp only [CF.foldArrayParts, exceptPure_eq, Except.ok.injEq] at h
    subst h
    rfl
  | cons hd rest ih =>
    obtain ⟨s, ad⟩ := hd
    cases ad with
    | unknown =>
      intro l' h
      simp only [CF.foldArrayParts] at h
      obtain ⟨rest', h1, h⟩ := exceptBind_ok h
      simp only [exceptPure_eq, Except.ok.injEq] at h
      subst h
      simp only [CF.foldArrayParts, ih rest' h1, exceptBind_ok_eq, exceptPure_eq]
    | known e =>
      intro l' h
      simp only [CF.foldArrayParts] at h
      obtain ⟨⟨e', v⟩, h1, h⟩ := exceptBind_ok h
      obtain ⟨rest', h2, h⟩ := exceptBind_ok h
      simp only [exceptPure_eq, Except.ok.injEq] at h
      subst h
      simp only [CF.foldArrayParts, foldExprNode_idem m fact e e' v h1,
        ih rest' h2, exceptBind_ok_eq, exceptPure_eq]

/-- The array-part loop preserves emptiness (helper for C9). -/
theorem foldArrayParts_isEmpty {F : Type} (m : FloatModel F) (fact : CF.Fact F) :
    ∀ (l l' : List (CF.ArrayDeclarationNode F)),
      CF.foldArrayParts m fact l = .ok l' → l'.isEmpty = l.isEmpty := by
  intro l l' h
  cases l with
  | nil =>
    simp only [CF.foldArrayParts, exceptPure_eq, Except.ok.injEq] at h
    subst h
    rfl
  | cons hd rest =>
    obtain ⟨s, ad⟩ := hd
    cases ad with
    | unknown =>
      simp only [CF.foldArrayParts] at h
      obtain ⟨rest', h1, h⟩ := exceptBind_ok h
      simp only [exceptPure_eq, Except.ok.injEq] at h
      subst h
      rfl
    | known e =>
      simp only [CF.foldArrayParts] at h
      obtain ⟨⟨e', v⟩, h1, h⟩ := exceptBind_ok h
      obtain ⟨rest', h2, h⟩ := exceptBind_ok h
      simp only [exceptPure_eq, Except.ok.injEq] at h
      subst h
      rfl

/-- Idempotence of `fold_declaration` (helper for C9). -/
theorem foldDeclaration_idem {F : Type} (m : FloatModel F) (fact : CF.Fact F)
    (d d' : CF.Declaration F) (f' : CF.Fact F)
    (h : CF.foldDeclaration m fact d = .ok (d', f')) :
    CF.foldDeclaration m fact d' = .ok (d', f') := by
  cases d with
  | functionDeclaration fd =>
    simp only [CF.foldDeclaration, exceptPure_eq, Except.ok.injEq, Prod.mk.injEq] at h
    obtain ⟨he, hv⟩ := h
    subst he
    subst hv
    rfl
  | variableDecl vd =>
    obtain ⟨tn, ident, aps, init⟩ := vd
    cases init with
    | none =>
      rw [CF.foldDeclaration.eq_def] at h
      simp only [exceptBind_ok_eq, exceptPure_eq] at h
      cases haps : aps.isEmpty with
      | true =>
        rw [haps] at h
        simp only [if_true, Except.ok.injEq, Prod.mk.injEq] at h
        obtain ⟨he, hv⟩ := h
        subst he
        subst hv
        rw [CF.foldDeclaration.eq_def]
        simp only [exceptBind_ok_eq, exceptPure_eq, haps, if_true]
      | false =>
        rw [haps] at h
        simp only [Bool.false_eq_true, if_false] at h
        obtain ⟨aps', h1, h⟩ := exceptBind_ok h
        simp only [exceptPure_eq, Except.ok.injEq, Prod.mk.injEq] at h
        obtain ⟨he, hv⟩ := h
        subst he
        subst hv
        have haps' : aps'.isEmpty = false := by
          rw [foldArrayParts_isEmpty m fact aps aps' h1, haps]
        rw [CF.foldDeclaration.eq_def]
        simp only [exceptBind_ok_eq, exceptPure_eq, haps', Bool.false_eq_true,
          if_false, foldArrayParts_idem m fact aps aps' h1]
    | some p =>
      obtain ⟨opSpan, n⟩ := p
      rw [CF.foldDeclaration.eq_def] at h
      obtain ⟨⟨n', v⟩, h1, h⟩ := exceptBind_ok h
      simp only [exceptBind_ok_eq, exceptPure_eq] at h
      cases haps : aps.isEmpty with
      | true =>
        rw [haps] at h
        simp only [if_true, Except.ok.injEq, Prod.mk.injEq] at h
        obtain ⟨he, hv⟩ := h
        subst he
        subst hv
        rw [CF.foldDeclaration.eq_def]
        simp only [foldExprNode_idem m fact n n' v h1, exceptBind_ok_eq,
          exceptPure_eq, haps, if_true]
      | false =>
        rw [haps] at h
        simp only [Bool.false_eq_true, if_false] at h
        obtain ⟨aps', h2, h⟩ := exceptBind_ok h
        simp only [exceptPure_eq, Except.ok.injEq, Prod.mk.injEq] at h
        obtain ⟨he, hv⟩ := h
        subst he
        subst hv
        have haps' : aps'.isEmpty = false := by
          rw [foldArrayParts_isEmpty m fact aps aps' h2, haps]
        rw [CF.foldDeclaration.eq_def]
        simp only [foldExprNode_idem m fact n n' v h1, exceptBind_ok_eq,
          exceptPure_eq, haps', Bool.false_eq_true, if_false,
          foldArrayParts_idem m fact aps aps' h2]

mutual

/-- Idempotence of `fold_statement` (helper for C9): refolding a folded
statement under the same incoming fact reproduces the statement and the
fact it returned. -/
theorem foldStatement_idem {F : Type} (m : FloatModel F) :
    ∀ (fact : CF.Fact F) (s s' : CF.Statement F) (f2 : CF.Fact F),
      CF.foldStatement m fact s = .ok (s', f2) →
      CF.foldStatement m fact s' = .ok (s', f2)
  | fact, .declaration decl, s', f2, h => by
    rw [CF.foldStatement.eq_def] at h
    obtain ⟨⟨decl', fd⟩, h1, h⟩ := exceptBind_ok h
    simp only [exceptPure_eq, Except.ok.injEq, Prod.mk.injEq] at h
    obtain ⟨he, hv⟩ := h
    subst he
    subst hv
    rw [CF.foldStatement.eq_def]
    simp only [foldDeclaration_idem m fact decl decl' fd h1,
      exceptBind_ok_eq, exceptPure_eq]
  | fact, .expression n, s', f2, h => by
    rw [CF.foldStatement.eq_def] at h
    obtain ⟨⟨n', v⟩, h1, h⟩ := exceptBind_ok h
    simp only [exceptPure_eq, Except.ok.injEq, Prod.mk.injEq] at h
    obtain ⟨he, hv⟩ := h
    subst he
    subst hv
    rw [CF.foldStatement.eq_def]
    simp only [foldExprNode_idem m fact n n' v h1,
      exceptBind_ok_eq, exceptPure_eq]
  | fact, .ifStmt (.mk condition ifBody (some b)), s', f2, h => by
    rw [CF.foldStatement.eq_def] at h
    obtain ⟨⟨c', v⟩, h1, h⟩ := exceptBind_ok h
    obtain ⟨ib', h2, h⟩ := exceptBind_ok h
    obtain ⟨b', h4, h⟩ := exceptBind_ok h
    simp only [exceptBind_ok_eq, exceptPure_eq, Except.ok.injEq,
      Prod.mk.injEq] at h
    obtain ⟨he, hv⟩ := h
    subst he
    subst hv
    rw [CF.foldStatement.eq_def]
    simp only [foldExprNode_idem m none condition c' v h1,
      foldBlockStatement_idem m ifBody ib' h2,
      foldBlockStatement_idem m b b' h4,
      exceptBind_ok_eq, exceptPure_eq]
  | fact, .ifStmt (.mk condition ifBody none), s', f2, h => by
    rw [CF.foldStatement.eq_def] at h
    obtain ⟨⟨c', v⟩, h1, h⟩ := exceptBind_ok h
    obtain ⟨ib', h2, h⟩ := exceptBind_ok h
    obtain ⟨eb', h3, h⟩ := exceptBind_ok h
    simp only [exceptPure_eq, Except.ok.injEq] at h3
    subst h3
    simp only [exceptPure_eq, Except.ok.injEq, Prod.mk.injEq] at h
    obtain ⟨he, hv⟩ := h
    subst he
    subst hv
    rw [CF.foldStatement.eq_def]
    simp only [foldExprNode_idem m none condition c' v h1,
      foldBlockStatement_idem m ifBody ib' h2,
      exceptBind_ok_eq, exceptPure_eq]
  | fact, .switch (.mk expr cases), s', f2, h => by
    rw [CF.foldStatement.eq_def] at h
    obtain ⟨cases', h1, h⟩ := exceptBind_ok h
    simp only [exceptPure_eq, Except.ok.injEq, Prod.mk.injEq] at h
    obtain ⟨he, hv⟩ := h
    subst he
    subst hv
    rw [CF.foldStatement.eq_def]
    simp only [foldSwitchCases_idem m cases cases' h1,
      exceptBind_ok_eq, exceptPure_eq]
  | fact, .whileStmt (.mk condition body), s', f2, h => by
    rw [CF.foldStatement.eq_def] at h
    obtain ⟨⟨c', v⟩, h1, h⟩ := exceptBind_ok h
    obtain ⟨b', h2, h⟩ := exceptBind_ok h
    simp only [exceptPure_eq, Except.ok.injEq, Prod.mk.injEq] at h
    obtain ⟨he, hv⟩ := h
    subst he
    subst hv
    rw [CF.foldStatement.eq_def]
    simp only [foldExprNode_idem m none condition c' v h1,
      foldBlockStatement_idem m body b' h2,
      exceptBind_ok_eq, exceptPure_eq]
  | fact, .forStmt (.mk (some (.mk ss dd)) condition iter body), s', f2, h => by
    rw [CF.foldStatement.eq_def] at h
    obtain ⟨⟨dd', fdd⟩, h0a, h⟩ := exceptBind_ok h
    simp only [exceptBind_ok_eq, exceptPure_eq] at h
    obtain ⟨c', h2, h⟩ := exceptBind_ok h
    obtain ⟨it', h3, h⟩ := exceptBind_ok h
    obtain ⟨b', h4, h⟩ := exceptBind_ok h
    simp only [exceptPure_eq, Except.ok.injEq, Prod.mk.injEq] at h
    obtain ⟨he, hv⟩ := h
    subst he
    subst hv
    rw [CF.foldStatement.eq_def]
    simp only [foldStatement_idem m none dd dd' fdd h0a,
      foldOptExprNode_idem m none condition c' h2,
      foldOptExprNode_idem m none iter it' h3,
      foldBlockStatement_idem m body b' h4,
      exceptBind_ok_eq, exceptPure_eq]
  | fact, .forStmt (.mk none condition iter body), s', f2, h => by
    rw [CF.foldStatement.eq_def] at h
    obtain ⟨init', h0, h⟩ := exceptBind_ok h
    simp only [exceptPure_eq, Except.ok.injEq] at h0
    subst h0
    obtain ⟨c', h2, h⟩ := exceptBind_ok h
    obtain ⟨it', h3, h⟩ := exceptBind_ok h
    obtain ⟨b', h4, h⟩ := exceptBind_ok h
    simp only [exceptPure_eq, Except.ok.injEq, Prod.mk.injEq] at h
    obtain ⟨he, hv⟩ := h
    subst he
    subst hv
    rw [CF.foldStatement.eq_def]
    simp only [foldOptExprNode_idem m none condition c' h2,
      foldOptExprNode_idem m none iter it' h3,
      foldBlockStatement_idem m body b' h4,
      exceptBind_ok_eq, exceptPure_eq]
  | fact, .breakStmt, s', f2, h => by
    rw [CF.foldStatement.eq_def] at h
    simp only [exceptPure_eq, Except.ok.injEq, Prod.mk.injEq] at h
    obtain ⟨he, hv⟩ := h
    subst he
    subst hv
    rw [CF.foldStatement.eq_def]
    rfl
  | fact, .continueStmt, s', f2, h => by
    rw [CF.foldStatement.eq_def] at h
    simp only [exceptPure_eq, Except.ok.injEq, Prod.mk.injEq] at h
    obtain ⟨he, hv⟩ := h
    subst he
    subst hv
    rw [CF.foldStatement.eq_def]
    rfl
  | fact, .ret kw (some n), s', f2, h => by
    rw [CF.foldStatement.eq_def] at h
    obtain ⟨⟨n', v⟩, h1, h⟩ := exceptBind_ok h
    simp only [exceptPure_eq, Except.ok.injEq, Prod.mk.injEq] at h
    obtain ⟨he, hv⟩ := h
    subst he
    subst hv
    rw [CF.foldStatement.eq_def]
    simp only [foldExprNode_idem m fact n n' v h1,
      exceptBind_ok_eq, exceptPure_eq]
  | fact, .ret kw none, s', f2, h => by
    rw [CF.foldStatement.eq_def] at h
    simp only [exceptPure_eq, Except.ok.injEq, Prod.mk.injEq] at h
    obtain ⟨he, hv⟩ := h
    subst he
    subst hv
    rw [CF.foldStatement.eq_def]
    rfl
  | fact, .blockStatement bs, s', f2, h => by
    rw [CF.foldStatement.eq_def] at h
    obtain ⟨bs', h1, h⟩ := exceptBind_ok h
    simp only [exceptPure_eq, Except.ok.injEq, Prod.mk.injEq] at h
    obtain ⟨he, hv⟩ := h
    subst he
    subst hv
    rw [CF.foldStatement.eq_def]
    simp only [foldBlockStatement_idem m bs bs' h1,
      exceptBind_ok_eq, exceptPure_eq]

termination_by fact s s' f2 h => sizeOf s

/-- Idempotence of `fold_switch` over the case list (helper for C9). -/
theorem foldSwitchCases_idem {F : Type} (m : FloatModel F) :
    ∀ (cs cs' : List (CF.SwitchCase F)),
      CF.foldSwitchCases m cs = .ok cs' → CF.foldSwitchCases m cs' = .ok cs'
  | [], cs', h => by
    rw [CF.foldSwitchCases.eq_def] at h
    simp only [exceptPure_eq, Except.ok.injEq] at h
    subst h
    rw [CF.foldSwitchCases.eq_def]
    rfl
  | .exprCase (.mk espan edata) body :: rest, cs', h => by
    rw [CF.foldSwitchCases.eq_def] at h
    obtain ⟨⟨e', v⟩, h1, h⟩ := exceptBind_ok h
    obtain ⟨b', h2, h⟩ := exceptBind_ok h
    obtain ⟨rest', h3, h⟩ := exceptBind_ok h
    simp only [exceptPure_eq, Except.ok.injEq] at h
    subst h
    rw [CF.foldSwitchCases.eq_def]
    simp only [(foldExpr_idem m none edata e' v h1).1,
      foldBlockStatement_idem m body b' h2,
      foldSwitchCases_idem m rest rest' h3,
      exceptBind_ok_eq, exceptPure_eq]
  | .defaultCase body :: rest, cs', h => by
    rw [CF.foldSwitchCases.eq_def] at h
    obtain ⟨b', h2, h⟩ := exceptBind_ok h
    obtain ⟨rest', h3, h⟩ := exceptBind_ok h
    simp only [exceptPure_eq, Except.ok.injEq] at h
    subst h
    rw [CF.foldSwitchCases.eq_def]
    simp only [foldBlockStatement_idem m body b' h2,
      foldSwitchCases_idem m rest rest' h3,
      exceptBind_ok_eq, exceptPure_eq]

termination_by cs cs' h => sizeOf cs

/-- Idempotence of `fold_block_statement` (helper for C9). -/
theorem foldBlockStatement_idem {F : Type} (m : FloatModel F) :
    ∀ (b b' : CF.BlockStatementNode F),
      CF.foldBlockStatement m b = .ok b' → CF.foldBlockStatement m b' = .ok b'
  | .mk stmts, b', h => by
    rw [CF.foldBlockStatement.eq_def] at h
    obtain ⟨stmts', h1, h⟩ := exceptBind_ok h
    simp only [exceptPure_eq, Except.ok.injEq] at h
    subst h
    rw [CF.foldBlockStatement.eq_def]
    simp only [foldStmts_idem m none stmts stmts' h1,
      exceptBind_ok_eq, exceptPure_eq]

termination_by b b' h => sizeOf b

/-- Idempotence of the statement loop of `fold_block_statement` (helper for
C9): the facts recomputed along a refold agree with the first fold, so the
whole walk reproduces itself. -/
theorem foldStmts_idem {F : Type} (m : FloatModel F) :
    ∀ (fact : CF.Fact F) (l l' : List (CF.StatementNode F)),
      CF.foldStmts m fact l = .ok l' → CF.foldStmts m fact l' = .ok l'
  | fact, [], l', h => by
    rw [CF.foldStmts.eq_def] at h
    simp only [exceptPure_eq, Except.ok.injEq] at h
    subst h
    rw [CF.foldStmts.eq_def]
    rfl
  | fact, .mk ss dd :: rest, l', h => by
    rw [CF.foldStmts.eq_def] at h
    obtain ⟨⟨d', fact'⟩, h1, h⟩ := exceptBind_ok h
    obtain ⟨rest', h2, h⟩ := exceptBind_ok h
    simp only [exceptPure_eq, Except.ok.injEq] at h
    subst h
    rw [CF.foldStmts.eq_def]
    simp only [foldStatement_idem m fact dd d' fact' h1,
      foldStmts_idem m fact' rest rest' h2,
      exceptBind_ok_eq, exceptPure_eq]
termination_by fact l l' h => sizeOf l

end

/-- Idempotence of `fold_external_declaration` (helper for C9). -/
theorem foldExternalDeclaration_idem {F : Type} (m : FloatModel F)
    (d d' : CF.ExternalDeclaration F)
    (h : CF.foldExternalDeclaration m d = .ok d') :
    CF.foldExternalDeclaration m d' = .ok d' := by
  cases d with
  | functionDefinition fd =>
    obtain ⟨rt, idn, ps, iv, body⟩ := fd
    simp only [CF.foldExternalDeclaration] at h
    obtain ⟨b', h1, h⟩ := exceptBind_ok h
    simp only [exceptPure_eq, Except.ok.injEq] at h
    subst h
    simp only [CF.foldExternalDeclaration, foldBlockStatement_idem m body b' h1,
      exceptBind_ok_eq, exceptPure_eq]
  | declaration dd =>
    simp only [CF.foldExternalDeclaration] at h
    obtain ⟨⟨dd', f0⟩, h1, h⟩ := exceptBind_ok h
    simp only [exceptPure_eq, Except.ok.injEq] at h
    subst h
    simp only [CF.foldExternalDeclaration, foldDeclaration_idem m none dd dd' f0 h1,
      exceptBind_ok_eq, exceptPure_eq]

/-- Idempotence of the external-declaration loop of `Folder::fold` (helper
for C9). -/
theorem foldExternalDecls_idem {F : Type} (m : FloatModel F) :
    ∀ (l l' : List (CF.ExternalDeclarationNode F)),
      CF.foldExternalDecls m l = .ok l' → CF.foldExternalDecls m l' = .ok l' := by
  intro l
  induction l with
  | nil =>
    intro l' h
    simp only [CF.foldExternalDecls, exceptPure_eq, Except.ok.injEq] at h
    subst h
    rfl
  | cons n rest ih =>
    intro l' h
    obtain ⟨sp, dt⟩ := n
    simp only [CF.foldExternalDecls] at h
    obtain ⟨d', h1, h⟩ := exceptBind_ok h
    obtain ⟨rest', h2, h⟩ := exceptBind_ok h
    simp only [exceptPure_eq, Except.ok.injEq] at h
    subst h
    simp only [CF.foldExternalDecls, foldExternalDeclaration_idem m dt d' h1,
      ih rest' h2, exceptBind_ok_eq, exceptPure_eq]

/-- Idempotence of the whole comp_lib `const_fold` pass (helper for C9). -/
theorem cfConstFold_idem {F : Type} (m : FloatModel F)
    (a a' : CF.Ast F) (h : CF.constFold m a = .ok a') :
    CF.constFold m a' = .ok a' := by
  obtain ⟨gds⟩ := a
  simp only [CF.constFold] at h
  obtain ⟨gds', h1, h⟩ := exceptBind_ok h
  simp only [exceptPure_eq, Except.ok.injEq] at h
  subst h
  simp only [CF.constFold, foldExternalDecls_idem m gds gds' h1,
    exceptBind_ok_eq, exceptPure_eq]

/-- `replace_with_literal` (src crate) spelled out on a node. -/
theorem sfReplaceWithLiteral_mk {F : Type} (s : Span) (d : SF.Expression F)
    (v : SF.LiteralValue F) :
    SF.replaceWithLiteral (.mk s d) v =
      .mk s (.literal { span := s, data := { value := v } }) := rfl

/-- The src crate's `fold_expr` on a literal expression. -/
theorem sfFoldExpr_literal {F : Type} (m : FloatModel F) (fact : SF.Fact F)
    (lit : SF.LiteralNode F) :
    SF.foldExpr m fact (.literal lit) = .ok (.literal lit, some lit.data.value) := rfl

/-- Idempotence of the src crate's `fold_expr` (helper for C9), with the
literal-head preservation needed by the node-level proof. -/
theorem sfFoldExpr_idem {F : Type} (m : FloatModel F) (fact : SF.Fact F) :
    ∀ (e e' : SF.Expression F) (v : Option (SF.LiteralValue F)),
      SF.foldExpr m fact e = .ok (e', v) →
      SF.foldExpr m fact e' = .ok (e', v) ∧
        ∀ lit, e' = .literal lit → ∃ lit2, e = .literal lit2 := by
  intro e
  refine SF.foldExpr.induct m fact
    (fun e => ∀ (e' : SF.Expression F) (v : Option (SF.LiteralValue F)),
      SF.foldExpr m fact e = .ok (e', v) →
      SF.foldExpr m fact e' = .ok (e', v) ∧
        ∀ lit, e' = .literal lit → ∃ lit2, e = .literal lit2)
    ?_ ?_ ?_ ?_ ?_ e
  -- binary
  · intro lspan ldata op rspan rdata ihl ihr e' v h
    simp only [SF.foldExpr] at h
    obtain ⟨⟨lhsD, v1⟩, h1, h⟩ := exceptBind_ok h
    cases v1 with
    | none =>
      simp only [exceptPure_eq, Except.ok.injEq, Prod.mk.injEq] at h
      obtain ⟨he, hv⟩ := h
      subst he
      subst hv
      refine ⟨?_, ?_⟩
      · simp only [SF.foldExpr, (ihl lhsD none h1).1, exceptBind_ok_eq,
          exceptPure_eq, SF.ExpressionNode.span]
      · intro lit heq
        simp at heq
    | some f1 =>
      obtain ⟨⟨rhsD, v2⟩, h2, h⟩ := exceptBind_ok h
      cases v2 with
      | none =>
        simp only [exceptPure_eq, Except.ok.injEq, Prod.mk.injEq] at h
        obtain ⟨he, hv⟩ := h
        subst he
        subst hv
        refine ⟨?_, ?_⟩
        · simp only [SF.foldExpr, (ihl lhsD (some f1) h1).1,
            (ihr rhsD none h2).1, exceptBind_ok_eq, exceptPure_eq,
            SF.ExpressionNode.span]
        · intro lit heq
          simp at heq
      | some f2 =>
        obtain ⟨r, hr, h⟩ := exceptBind_ok h
        cases r with
        | some vres =>
          simp only [exceptPure_eq, Except.ok.injEq, Prod.mk.injEq] at h
          obtain ⟨he, hv⟩ := h
          subst he
          subst hv
          refine ⟨?_, ?_⟩
          · simp only [SF.foldExpr, (ihl lhsD (some f1) h1).1,
              (ihr rhsD (some f2) h2).1, exceptBind_ok_eq, hr,
              exceptPure_eq, SF.ExpressionNode.span]
          · intro lit heq
            simp at heq
        | none =>
          simp only [exceptPure_eq, Except.ok.injEq, Prod.mk.injEq] at h
          obtain ⟨he, hv⟩ := h
          subst he
          subst hv
          refine ⟨?_, ?_⟩
          · simp only [sfReplaceWithLiteral_mk, SF.foldExpr, sfFoldExpr_literal,
              exceptBind_ok_eq, hr, exceptPure_eq, SF.ExpressionNode.span]
          · intro lit heq
            simp at heq
  -- unary
  · intro op ispan idata ih e' v h
    simp only [SF.foldExpr] at h
    obtain ⟨⟨innerD, vi⟩, h1, h⟩ := exceptBind_ok h
    cases vi with
    | none =>
      simp only [exceptPure_eq, Except.ok.injEq, Prod.mk.injEq] at h
      obtain ⟨he, hv⟩ := h
      subst he
      subst hv
      refine ⟨?_, ?_⟩
      · simp only [SF.foldExpr, (ih innerD none h1).1, exceptBind_ok_eq,
          exceptPure_eq, SF.ExpressionNode.span]
      · intro lit heq
        simp at heq
    | some folded =>
      cases hev : SF.evalUnaryOp m op.data folded with
      | some vres =>
        simp only [hev] at h
        simp only [exceptPure_eq, Except.ok.injEq, Prod.mk.injEq] at h
        obtain ⟨he, hv⟩ := h
        subst he
        subst hv
        refine ⟨?_, ?_⟩
        · simp only [SF.foldExpr, (ih innerD (some folded) h1).1,
            exceptBind_ok_eq, hev, exceptPure_eq, SF.ExpressionNode.span]
        · intro lit heq
          simp at heq
      | none =>
        simp only [hev] at h
        simp only [exceptPure_eq, Except.ok.injEq, Prod.mk.injEq] at h
        obtain ⟨he, hv⟩ := h
        subst he
        subst hv
        refine ⟨?_, ?_⟩
        · simp only [sfReplaceWithLiteral_mk, SF.foldExpr, sfFoldExpr_literal,
            exceptBind_ok_eq, hev, exceptPure_eq, SF.ExpressionNode.span]
        · intro lit heq
          simp at heq
  -- cast
  · intro ty ispan idata ih e' v h
    simp only [SF.foldExpr] at h
    obtain ⟨⟨innerD, vi⟩, h1, h⟩ := exceptBind_ok h
    cases vi with
    | none =>
      simp only [exceptPure_eq, Except.ok.injEq, Prod.mk.injEq] at h
      obtain ⟨he, hv⟩ := h
      subst he
      subst hv
      refine ⟨?_, ?_⟩
      · simp only [SF.foldExpr, (ih innerD none h1).1, exceptBind_ok_eq,
          exceptPure_eq, SF.ExpressionNode.span]
      · intro lit heq
        simp at heq
    | some folded =>
      simp only [exceptPure_eq, Except.ok.injEq, Prod.mk.injEq] at h
      obtain ⟨he, hv⟩ := h
      subst he
      subst hv
      refine ⟨?_, ?_⟩
      · simp only [sfReplaceWithLiteral_mk, SF.foldExpr, sfFoldExpr_literal,
          exceptBind_ok_eq, exceptPure_eq, SF.ExpressionNode.span]
      · intro lit heq
        simp at heq
  -- literal
  · intro lit e' v h
    simp only [SF.foldExpr, exceptPure_eq, Except.ok.injEq, Prod.mk.injEq] at h
    obtain ⟨he, hv⟩ := h
    subst he
    subst hv
    exact ⟨rfl, fun lit2 _ => ⟨lit, rfl⟩⟩
  -- ident
  · intro i e' v h
    simp only [SF.foldExpr, exceptPure_eq, Except.ok.injEq, Prod.mk.injEq] at h
    obtain ⟨he, hv⟩ := h
    subst he
    subst hv
    refine ⟨rfl, ?_⟩
    intro lit heq
    simp at heq

/-- The src crate's `fold_expr_node` on a literal node short-circuits. -/
theorem sfFoldExprNode_lit {F : Type} (m : FloatModel F) (fact : SF.Fact F)
    (s : Span) (lit : SF.LiteralNode F) :
    SF.foldExprNode m fact (.mk s (.literal lit)) =
      .ok (.mk s (.literal lit), some lit.data.value) := rfl

/-- The src crate's `fold_expr_node` on a non-literal node folds the
expression and replaces the node when a value came out. -/
theorem sfFoldExprNode_not_lit {F : Type} (m : FloatModel F) (fact : SF.Fact F)
    (s : Span) (d : SF.Expression F)
    (hd : ∀ lit, d ≠ SF.Expression.literal lit) :
    SF.foldExprNode m fact (.mk s d) =
      (do
        let (d', v) ← SF.foldExpr m fact d
        match v with
        | some folded => pure (SF.replaceWithLiteral (.mk s d') folded, some folded)
        | none => pure (.mk s d', none)) := by
  cases d <;> first | rfl | exact absurd rfl (hd _)

/-- Idempotence of the src crate's `fold_expr_node` (helper for C9). -/
theorem sfFoldExprNode_idem {F : Type} (m : FloatModel F) (fact : SF.Fact F)
    (n n' : SF.ExpressionNode F) (v : Option (SF.LiteralValue F))
    (h : SF.foldExprNode m fact n = .ok (n', v)) :
    SF.foldExprNode m fact n' = .ok (n', v) := by
  obtain ⟨s, d⟩ := n
  by_cases hd : ∃ lit, d = SF.Expression.literal lit
  · obtain ⟨lit, rfl⟩ := hd
    rw [sfFoldExprNode_lit] at h
    simp only [Except.ok.injEq, Prod.mk.injEq] at h
    obtain ⟨he, hv⟩ := h
    subst he
    subst hv
    exact sfFoldExprNode_lit m fact s lit
  · have hd0 : ∀ lit, d ≠ SF.Expression.literal lit := fun lit hl => hd ⟨lit, hl⟩
    rw [sfFoldExprNode_not_lit m fact s d hd0] at h
    obtain ⟨⟨d', v0⟩, h1, h⟩ := exceptBind_ok h
    have key := sfFoldExpr_idem m fact d d' v0 h1
    cases v0 with
    | some folded =>
      simp only [exceptPure_eq, Except.ok.injEq, Prod.mk.injEq] at h
      obtain ⟨he, hv⟩ := h
      subst he
      subst hv
      rw [sfReplaceWithLiteral_mk, sfFoldExprNode_lit]
    | none =>
      simp only [exceptPure_eq, Except.ok.injEq, Prod.mk.injEq] at h
      obtain ⟨he, hv⟩ := h
      subst he
      subst hv
      have hd' : ∀ lit, d' ≠ SF.Expression.literal lit :=
        fun lit hl => absurd (key.2 lit hl) hd
      rw [sfFoldExprNode_not_lit m fact s d' hd', key.1]
      rfl

mutual

/-- Idempotence of the src crate's `fold_statement` (helper for C9):
refolding a folded statement under the same incoming fact reproduces the
statement and the fact it returned. -/
theorem sfFoldStatement_idem {F : Type} (m : FloatModel F) :
    ∀ (fact : SF.Fact F) (s s' : SF.Statement F) (f2 : SF.Fact F),
      SF.foldStatement m fact s = .ok (s', f2) →
      SF.foldStatement m fact s' = .ok (s', f2)
  | fact, .declaration tn idn (some n), s', f2, h => by
    rw [SF.foldStatement.eq_def] at h
    obtain ⟨⟨n', v⟩, h1, h⟩ := exceptBind_ok h
    simp only [exceptPure_eq, Except.ok.injEq, Prod.mk.injEq] at h
    obtain ⟨he, hv⟩ := h
    subst he
    subst hv
    rw [SF.foldStatement.eq_def]
    simp only [sfFoldExprNode_idem m fact n n' v h1,
      exceptBind_ok_eq, exceptPure_eq]
  | fact, .declaration tn idn none, s', f2, h => by
    rw [SF.foldStatement.eq_def] at h
    simp only [exceptPure_eq, Except.ok.injEq, Prod.mk.injEq] at h
    obtain ⟨he, hv⟩ := h
    subst he
    subst hv
    rw [SF.foldStatement.eq_def]
    rfl
  | fact, .assignment idn rhs, s', f2, h => by
    rw [SF.foldStatement.eq_def] at h
    obtain ⟨⟨rhs', v⟩, h1, h⟩ := exceptBind_ok h
    simp only [exceptPure_eq, Except.ok.injEq, Prod.mk.injEq] at h
    obtain ⟨he, hv⟩ := h
    subst he
    subst hv
    rw [SF.foldStatement.eq_def]
    simp only [sfFoldExprNode_idem m fact rhs rhs' v h1,
      exceptBind_ok_eq, exceptPure_eq]
  | fact, .expression n, s', f2, h => by
    rw [SF.foldStatement.eq_def] at h
    obtain ⟨⟨n', v⟩, h1, h⟩ := exceptBind_ok h
    simp only [exceptPure_eq, Except.ok.injEq, Prod.mk.injEq] at h
    obtain ⟨he, hv⟩ := h
    subst he
    subst hv
    rw [SF.foldStatement.eq_def]
    simp only [sfFoldExprNode_idem m fact n n' v h1,
      exceptBind_ok_eq, exceptPure_eq]
  | fact, .blockStatement bs, s', f2, h => by
    rw [SF.foldStatement.eq_def] at h
    obtain ⟨bs', h1, h⟩ := exceptBind_ok h
    simp only [exceptPure_eq, Except.ok.injEq, Prod.mk.injEq] at h
    obtain ⟨he, hv⟩ := h
    subst he
    subst hv
    rw [SF.foldStatement.eq_def]
    simp only [sfFoldBlockStatement_idem m bs bs' h1,
      exceptBind_ok_eq, exceptPure_eq]
termination_by fact s s' f2 h => sizeOf s

/-- Idempotence of the src crate's `fold_block_statement` (helper for C9). -/
theorem sfFoldBlockStatement_idem {F : Type} (m : FloatModel F) :
    ∀ (b b' : SF.BlockStatement F),
      SF.foldBlockStatement m b = .ok b' → SF.foldBlockStatement m b' = .ok b'
  | .mk stmts, b', h => by
    rw [SF.foldBlockStatement.eq_def] at h
    obtain ⟨stmts', h1, h⟩ := exceptBind_ok h
    simp only [exceptPure_eq, Except.ok.injEq] at h
    subst h
    rw [SF.foldBlockStatement.eq_def]
    simp only [sfFoldStmts_idem m none stmts stmts' h1,
      exceptBind_ok_eq, exceptPure_eq]
termination_by b b' h => sizeOf b

/-- Idempotence of the statement loop of the src crate's
`fold_block_statement` (helper for C9). -/
theorem sfFoldStmts_idem {F : Type} (m : FloatModel F) :
    ∀ (fact : SF.Fact F) (l l' : List (SF.StatementNode F)),
      SF.foldStmts m fact l = .ok l' → SF.foldStmts m fact l' = .ok l'
  | fact, [], l', h => by
    rw [SF.foldStmts.eq_def] at h
    simp only [exceptPure_eq, Except.ok.injEq] at h
    subst h
    rw [SF.foldStmts.eq_def]
    rfl
  | fact, .mk ss dd :: rest, l', h => by
    rw [SF.foldStmts.eq_def] at h
    obtain ⟨⟨d', fact'⟩, h1, h⟩ := exceptBind_ok h
    obtain ⟨rest', h2, h⟩ := exceptBind_ok h
    simp only [exceptPure_eq, Except.ok.injEq] at h
    subst h
    rw [SF.foldStmts.eq_def]
    simp only [sfFoldStatement_idem m fact dd d' fact' h1,
      sfFoldStmts_idem m fact' rest rest' h2,
      exceptBind_ok_eq, exceptPure_eq]
termination_by fact l l' h => sizeOf l

end

/-- Idempotence of the whole src-crate `const_fold` pass (helper for C9). -/
theorem sfConstFold_idem {F : Type} (m : FloatModel F)
    (a a' : SF.Ast F) (h : SF.constFold m a = .ok a') :
    SF.constFold m a' = .ok a' := by
  obtain ⟨g⟩ := a
  simp only [SF.constFold] at h
  obtain ⟨g', h1, h⟩ := exceptBind_ok h
  simp only [exceptPure_eq, Except.ok.injEq] at h
  subst h
  simp only [SF.constFold, sfFoldBlockStatement_idem m g g' h1,
    exceptBind_ok_eq, exceptPure_eq]

/-- C9: constant folding is idempotent in both copies of the pass: whenever
the comp_lib `const_fold` or the src crate's `const_fold` successfully folds
a syntax tree, running the same pass again on the folded tree returns it
exactly unchanged (same tree, same success). -/
theorem const_fold_idempotent {F : Type} (m : FloatModel F) :
    (∀ (a a' : CF.Ast F), CF.constFold m a = .ok a' → CF.constFold m a' = .ok a')
    ∧ (∀ (a a' : SF.Ast F), SF.constFold m a = .ok a' → SF.constFold m a' = .ok a') :=
  ⟨fun a a' h => cfConstFold_idem m a a' h,
   fun a a' h => sfConstFold_idem m a a' h⟩

set_option maxRecDepth 4000 in
/-- Witness for C9: both clauses applied to concrete one-statement programs
whose `1 + 2` initializer / right-hand side folds to the literal `3`; the
first fold of each is discharged by computation, and refolding the folded
tree reproduces it. -/
theorem const_fold_idempotent_witness :
    CF.constFold intFloatModel
      { globalDeclarations := [⟨⟨0, 13⟩, .declaration (.variableDecl (.mk
          ⟨⟨0, 3⟩, ⟨none, ⟨⟨0, 3⟩, .signedInt⟩⟩⟩ ⟨⟨4, 1⟩, "x"⟩ []
          (some (⟨6, 1⟩, .mk ⟨8, 5⟩ (.binary
            (.mk ⟨8, 1⟩ (.literal ⟨⟨8, 1⟩, .dec 1⟩)) ⟨⟨10, 1⟩, .plus⟩
            (.mk ⟨12, 1⟩ (.literal ⟨⟨12, 1⟩, .dec 2⟩)))))))⟩] } =
      .ok { globalDeclarations := [⟨⟨0, 13⟩, .declaration (.variableDecl (.mk
          ⟨⟨0, 3⟩, ⟨none, ⟨⟨0, 3⟩, .signedInt⟩⟩⟩ ⟨⟨4, 1⟩, "x"⟩ []
          (some (⟨6, 1⟩, .mk ⟨8, 5⟩ (.literal ⟨⟨8, 5⟩, .dec 3⟩)))))⟩] } ∧
    CF.constFold intFloatModel
      { globalDeclarations := [⟨⟨0, 13⟩, .declaration (.variableDecl (.mk
          ⟨⟨0, 3⟩, ⟨none, ⟨⟨0, 3⟩, .signedInt⟩⟩⟩ ⟨⟨4, 1⟩, "x"⟩ []
          (some (⟨6, 1⟩, .mk ⟨8, 5⟩ (.literal ⟨⟨8, 5⟩, .dec 3⟩)))))⟩] } =
      .ok { globalDeclarations := [⟨⟨0, 13⟩, .declaration (.variableDecl (.mk
          ⟨⟨0, 3⟩, ⟨none, ⟨⟨0, 3⟩, .signedInt⟩⟩⟩ ⟨⟨4, 1⟩, "x"⟩ []
          (some (⟨6, 1⟩, .mk ⟨8, 5⟩ (.literal ⟨⟨8, 5⟩, .dec 3⟩)))))⟩] } ∧
    SF.constFold intFloatModel
      { global := .mk [⟨⟨0, 10⟩, .assignment ⟨⟨0, 1⟩, "x"⟩ (.mk ⟨4, 5⟩ (.binary
          (.mk ⟨4, 1⟩ (.literal ⟨⟨4, 1⟩, ⟨.integer 1⟩⟩)) ⟨⟨6, 1⟩, .plus⟩
          (.mk ⟨8, 1⟩ (.literal ⟨⟨8, 1⟩, ⟨.integer 2⟩⟩))))⟩] } =
      .ok { global := .mk [⟨⟨0, 10⟩, .assignment ⟨⟨0, 1⟩, "x"⟩
          (.mk ⟨4, 5⟩ (.literal ⟨⟨4, 5⟩, ⟨.integer 3⟩⟩))⟩] } ∧
    SF.constFold intFloatModel
      { global := .mk [⟨⟨0, 10⟩, .assignment ⟨⟨0, 1⟩, "x"⟩
          (.mk ⟨4, 5⟩ (.literal ⟨⟨4, 5⟩, ⟨.integer 3⟩⟩))⟩] } =
      .ok { global := .mk [⟨⟨0, 10⟩, .assignment ⟨⟨0, 1⟩, "x"⟩
          (.mk ⟨4, 5⟩ (.literal ⟨⟨4, 5⟩, ⟨.integer 3⟩⟩))⟩] } :=
  by
  have h1 : CF.constFold intFloatModel
      { globalDeclarations := [⟨⟨0, 13⟩, .declaration (.variableDecl (.mk
          ⟨⟨0, 3⟩, ⟨none, ⟨⟨0, 3⟩, .signedInt⟩⟩⟩ ⟨⟨4, 1⟩, "x"⟩ []
          (some (⟨6, 1⟩, .mk ⟨8, 5⟩ (.binary
            (.mk ⟨8, 1⟩ (.literal ⟨⟨8, 1⟩, .dec 1⟩)) ⟨⟨10, 1⟩, .plus⟩
            (.mk ⟨12, 1⟩ (.literal ⟨⟨12, 1⟩, .dec 2⟩)))))))⟩] } =
      .ok { globalDeclarations := [⟨⟨0, 13⟩, .declaration (.variableDecl (.mk
          ⟨⟨0, 3⟩, ⟨none, ⟨⟨0, 3⟩, .signedInt⟩⟩⟩ ⟨⟨4, 1⟩, "x"⟩ []
          (some (⟨6, 1⟩, .mk ⟨8, 5⟩ (.literal ⟨⟨8, 5⟩, .dec 3⟩)))))⟩] } := rfl
  have h2 : SF.constFold intFloatModel
      { global := .mk [⟨⟨0, 10⟩, .assignment ⟨⟨0, 1⟩, "x"⟩ (.mk ⟨4, 5⟩ (.binary
          (.mk ⟨4, 1⟩ (.literal ⟨⟨4, 1⟩, ⟨.integer 1⟩⟩)) ⟨⟨6, 1⟩, .plus⟩
          (.mk ⟨8, 1⟩ (.literal ⟨⟨8, 1⟩, ⟨.integer 2⟩⟩))))⟩] } =
      .ok { global := .mk [⟨⟨0, 10⟩, .assignment ⟨⟨0, 1⟩, "x"⟩
          (.mk ⟨4, 5⟩ (.literal ⟨⟨4, 5⟩, ⟨.integer 3⟩⟩))⟩] } := rfl
  exact ⟨h1, (const_fold_idempotent intFloatModel).1 _ _ h1, h2,
    (const_fold_idempotent intFloatModel).2 _ _ h2⟩
